import Mathlib

/-!
# Terrain generator `generate_natural` (src/worldgen.h)

A shallow embedding of the world generator: machine integers are `Nat`/`Int`
with explicit wrap-around casts (`u8`, `u16`, `i8`), the voxel grid
`world.blocks[y][x][z]` is a function of the three indices, and every stage of
the pipeline is a function from grid to grid.  `WORLD_SIZE` and `WORLD_HEIGHT`
come from `world.h` and are parameters (`WS`, `WH`) throughout.

The counted loops over columns and levels are folds over `List.range`; their
`uint8_t` counters reach every bound up to 255, which is the range of sizes
the folds stand for.  The two `while` loops are recursive functions: the tree
scan recurses on its own counter, the spawn scan carries a bound on the number
of times its condition is evaluated.
-/

namespace Worldgen

/-! ## Machine integers -/

/-- Conversion of a C integer value to `uint8_t`. -/
def u8 (i : Int) : Nat := (i % 256).toNat

/-- Conversion of a C integer value to `uint16_t`. -/
def u16 (i : Int) : Nat := (i % 65536).toNat

/-- Conversion of a C integer value to `int8_t` (two's complement wrap). -/
def i8 (i : Int) : Int := (i + 128) % 256 - 128

/-! ## Constants of worldgen.h -/

def WATER_LEVEL : Nat := 5

def GRID_STEP : Nat := 6

def GRID_OFFSET : Nat := GRID_STEP / 2

/-- The macro `GRID_SIZE`, `(WORLD_SIZE / GRID_STEP) + 2`. -/
def GRID_SIZE (WS : Nat) : Nat := WS / GRID_STEP + 2

/-! ## Voxel grid -/

/-- Modelled from the spec: the material enumeration of `world.h`, which is
not part of the sources.  The spec names AIR, BEDROCK, WATER, STONE, DIRT,
GRASS, SAND, COAL_ORE, IRON_ORE and leaves the rest open; `OTHER` stands for
any further identifier. -/
inductive Block
  | AIR
  | BEDROCK
  | WATER
  | STONE
  | DIRT
  | GRASS
  | SAND
  | COAL_ORE
  | IRON_ORE
  | OTHER (id : Nat)
  deriving DecidableEq, Repr

open Block

/-- The array `world.blocks`, read as `blocks y x z` for `blocks[y][x][z]`. -/
abbrev World := Nat → Nat → Nat → Block

/-- The assignment `world.blocks[y][x][z] = id`. -/
def setBlock (w : World) (y x z : Nat) (id : Block) : World :=
  fun y' x' z' => if y' = y ∧ x' = x ∧ z' = z then id else w y' x' z'

/-- Modelled from the spec: `world_t::fill_space` of `world.h`, which is not
part of the sources.  The spec gives it as an inclusive axis-aligned box write
`fill_space(x0,y0,z0, x1,y1,z1, material)`. -/
def fill_space (w : World) (x0 y0 z0 x1 y1 z1 : Nat) (id : Block) : World :=
  fun y x z =>
    if x0 ≤ x ∧ x ≤ x1 ∧ y0 ≤ y ∧ y ≤ y1 ∧ z0 ≤ z ∧ z ≤ z1 then id else w y x z

/-- One call of `fill_space`, kept as data so that the voxels a stage writes
can be enumerated. -/
structure Fill where
  x0 : Nat
  y0 : Nat
  z0 : Nat
  x1 : Nat
  y1 : Nat
  z1 : Nat
  id : Block
  deriving DecidableEq, Repr

/-- Performs a recorded `fill_space` call on a grid. -/
def Fill.run (w : World) (f : Fill) : World :=
  fill_space w f.x0 f.y0 f.z0 f.x1 f.y1 f.z1 f.id

/-- The voxel `(y, x, z)` lies in the box of the call. -/
def Fill.covers (f : Fill) (y x z : Nat) : Prop :=
  f.x0 ≤ x ∧ x ≤ f.x1 ∧ f.y0 ≤ y ∧ y ≤ f.y1 ∧ f.z0 ≤ z ∧ z ≤ f.z1

instance (f : Fill) (y x z : Nat) : Decidable (f.covers y x z) := by
  unfold Fill.covers; infer_instance

/-! ## Base layers (lines 18-24) -/

/-- The two base fills: a bedrock floor and the water volume. -/
def baseLayers (WS : Nat) (w : World) : World :=
  let w1 := fill_space w 0 0 0 (WS - 1) 0 (WS - 1) BEDROCK
  fill_space w1 0 1 0 (WS - 1) WATER_LEVEL (WS - 1) WATER

/-! ## Coarse heightmap (lines 29-39) -/

/-- The coarse grid filled from the two draws of every lattice point:
`low = randInt(3, 10)`, `high = randInt(0, 4)`, `grid[gx][gz] = low + high`,
each stored in a `uint8_t`.  `randInt` belongs to the toolchain, so the values
it returns are the parameters `low` and `high`. -/
def coarseGrid (low high : Nat → Nat → Nat) : Nat → Nat → Nat :=
  fun gx gz => u8 ((u8 (low gx gz) : Int) + (u8 (high gx gz) : Int))

/-! ## Height field sampler (lines 41-79) -/

/-- The constant `denom`, `(uint16_t)GRID_STEP * (uint16_t)GRID_STEP`. -/
def denom : Nat := u16 ((u16 GRID_STEP : Int) * (u16 GRID_STEP : Int))

/-- The integer value of the four-term weighted sum of lines 69-72, before it
is stored in the `uint16_t` accumulator. -/
def weightedSum (h00 h10 h01 h11 lerp_x lerp_z : Nat) : Int :=
  let inv_x : Int := u8 ((GRID_STEP : Int) - lerp_x)
  let inv_z : Int := u8 ((GRID_STEP : Int) - lerp_z)
  (u16 h00 : Int) * inv_x * inv_z +
  (u16 h10 : Int) * lerp_x * inv_z +
  (u16 h01 : Int) * inv_x * lerp_z +
  (u16 h11 : Int) * lerp_x * lerp_z

/-- Lines 65-74: the accumulator `height` after `height /= denom`. -/
def interpolate (h00 h10 h01 h11 lerp_x lerp_z : Nat) : Nat :=
  let height := u16 (weightedSum h00 h10 h01 h11 lerp_x lerp_z)
  u16 ((height : Int) / (denom : Int))

/-- The weighted sum of the four corner samples as an exact natural number,
with the weights `GRID_STEP - lerp` and `lerp` of the bilinear blend. -/
def exactSum (h00 h10 h01 h11 lx lz : Nat) : Nat :=
  h00 * (GRID_STEP - lx) * (GRID_STEP - lz) + h10 * lx * (GRID_STEP - lz) +
    h01 * (GRID_STEP - lx) * lz + h11 * lx * lz

/-- The cell index `grid_x = x / GRID_STEP` of a column coordinate. -/
def gridIndex (x : Nat) : Nat := u8 ((x : Int) / (GRID_STEP : Int))

/-- The offset `lerp_x = x - (grid_x * GRID_STEP)` inside the cell. -/
def lerpOf (x : Nat) : Nat := u8 ((x : Int) - (gridIndex x : Int) * (GRID_STEP : Int))

/-- The clamped index `gx0` of lines 55-56. -/
def clampIndex (WS : Nat) (grid_x : Nat) : Nat :=
  u8 (if (grid_x : Int) < (GRID_SIZE WS : Int) - 1 then (grid_x : Int)
      else (GRID_SIZE WS : Int) - 2)

/-- Lines 47-74: the interpolated height of column `(x, z)` before the bias. -/
def rawHeight (WS : Nat) (grid : Nat → Nat → Nat) (x z : Nat) : Nat :=
  let gx0 := clampIndex WS (gridIndex x)
  let gz0 := clampIndex WS (gridIndex z)
  let gx1 := u8 ((gx0 : Int) + 1)
  let gz1 := u8 ((gz0 : Int) + 1)
  interpolate (grid gx0 gz0) (grid gx1 gz0) (grid gx0 gz1) (grid gx1 gz1)
    (lerpOf x) (lerpOf z)

/-- Lines 77-79: the bias that lifts low terrain by one. -/
def biasHeight (height : Nat) : Nat :=
  if height > 0 ∧ height < WATER_LEVEL + 2 then u16 ((height : Int) + 1) else height

/-- The height handed to column layering for column `(x, z)`. -/
def columnHeight (WS : Nat) (grid : Nat → Nat → Nat) (x z : Nat) : Nat :=
  biasHeight (rawHeight WS grid x z)

/-! ## Column layering (lines 81-109) -/

/-- The `fill_space` calls that column layering makes for column `(x, z)` of
height `height`, in program order: the STONE and DIRT fills of the
`height > 3` branch or the DIRT fill of the other branch, then the GRASS
overlay. -/
def layerFills (WH x z height : Nat) : List Fill :=
  let ground : List Fill :=
    if height > 3 then
      let stone_top := u8 (if height > 3 then (height : Int) - 3 else 1)
      let dirt_top :=
        u8 (if (height : Int) > (WH : Int) - 1 then (WH : Int) - 1 else (height : Int))
      let dirt_bottom :=
        u8 (if (stone_top : Int) + 1 ≤ (dirt_top : Int) then (stone_top : Int) + 1
            else (dirt_top : Int))
      ⟨x, 1, z, x, stone_top, z, STONE⟩ ::
        (if dirt_bottom ≤ dirt_top then [⟨x, dirt_bottom, z, x, dirt_top, z, DIRT⟩]
         else [])
    else
      let dirt_top :=
        u8 (if (height : Int) > (WH : Int) - 1 then (WH : Int) - 1 else (height : Int))
      if dirt_top ≥ 1 then [⟨x, 1, z, x, dirt_top, z, DIRT⟩] else []
  let grass : List Fill :=
    if height ≥ WATER_LEVEL ∧ (height : Int) < (WH : Int) then
      [⟨x, height, z, x, height, z, GRASS⟩]
    else []
  ground ++ grass

/-- Column layering of one column on the grid. -/
def layerColumn (WH : Nat) (w : World) (x z height : Nat) : World :=
  (layerFills WH x z height).foldl Fill.run w

/-- The terrain loops of lines 46-111 over every column, `x` outer, `z` inner. -/
def terrain (WS WH : Nat) (grid : Nat → Nat → Nat) (w : World) : World :=
  (List.range WS).foldl
    (fun w x => (List.range WS).foldl
      (fun w z => layerColumn WH w x z (columnHeight WS grid x z)) w) w

/-! ## Shoreline pass (lines 116-152) -/

/-- The values of the `int8_t` counters `bx` and `bz`. -/
def offsets : List Int := [-2, -1, 0, 1, 2]

/-- Lines 129-145: the neighbourhood search that sets `near_water`. -/
def nearWater (WS : Nat) (w : World) (y x z : Nat) : Bool :=
  offsets.any fun bx =>
    let nx := i8 (i8 (x : Int) + bx)
    if nx < 0 ∨ nx ≥ (WS : Int) then false
    else
      offsets.any fun bz =>
        let nz := i8 (i8 (z : Int) + bz)
        if nz < 0 ∨ nz ≥ (WS : Int) then false
        else decide (w y nx.toNat nz.toNat = WATER)

/-- Lines 121-149: the body of the shoreline loops at one voxel. -/
def shoreCell (WS WH : Nat) (w : World) (y x z : Nat) : World :=
  let id := w y x z
  if id ≠ GRASS ∧ id ≠ DIRT then w
  else if (y : Int) ≥ (WH : Int) - 1 then w
  else
    let above := w (y + 1) x z
    if above ≠ AIR ∧ above ≠ WATER then w
    else if nearWater WS w y x z then setBlock w y x z SAND
    else w

/-- The `x` and `z` loops of the shoreline pass at height `y`. -/
def shoreLevel (WS WH : Nat) (w : World) (y : Nat) : World :=
  (List.range WS).foldl
    (fun w x => (List.range WS).foldl (fun w z => shoreCell WS WH w y x z) w) w

/-- The `y` loop of the shoreline pass over the remaining levels, with its
`if(y >= WORLD_HEIGHT) break;`. -/
def shoreLevels (WS WH : Nat) : World → List Nat → World
  | w, [] => w
  | w, y :: ys => if y ≥ WH then w else shoreLevels WS WH (shoreLevel WS WH w y) ys

/-- The shoreline pass: levels `WATER_LEVEL - 1` and `WATER_LEVEL`. -/
def shoreline (WS WH : Nat) (w : World) : World :=
  shoreLevels WS WH w [WATER_LEVEL - 1, WATER_LEVEL]

/-! ## Trees (lines 157-174) -/

/-- The number of attempts, `tree_cnt`. -/
def tree_cnt : Nat := 14

/-- The value of the expression `2 + (random() % (WORLD_SIZE - 1 - 4))` of
lines 159-160, for the value `r` returned by `random()`. -/
def treeCoordExpr (WS r : Nat) : Int := 2 + (r : Int) % ((WS : Int) - 1 - 4)

/-- Lines 159-160: the expression stored in the `uint8_t` coordinate. -/
def treeCoord (WS r : Nat) : Nat := u8 (treeCoordExpr WS r)

/-- The loop `while(y > 1 && world.blocks[y][x][z] == AIR) y--;` started at a
non-negative `y`. -/
def scanDown (w : World) (x z : Nat) : Nat → Nat
  | 0 => 0
  | y + 1 => if y + 1 > 1 ∧ w (y + 1) x z = AIR then scanDown w x z y else y + 1

/-- Lines 162-167: `int8_t y = WORLD_HEIGHT - 2` followed by the downward
scan; a negative start fails `y > 1` at once. -/
def treeSurface (WH : Nat) (w : World) (x z : Nat) : Int :=
  let y := i8 ((WH : Int) - 2)
  if y < 0 then y else (scanDown w x z y.toNat : Int)

/-- The grid together with the `add_tree` calls made so far, as `(x, y, z)`. -/
structure TreeState where
  world : World
  calls : List (Nat × Int × Nat)

/-- One iteration of the tree loop for the two values `rx`, `rz` returned by
`random()`.  `world_t::add_tree` is not part of the sources and is the
parameter `add_tree`.  The `int8_t` height `y` indexes the grid through
`Int.toNat`; it is non-negative whenever `2 ≤ WORLD_HEIGHT ≤ 129`. -/
def treeAttempt (WS WH : Nat) (add_tree : World → Nat → Int → Nat → World)
    (s : TreeState) (rx rz : Nat) : TreeState :=
  let x := treeCoord WS rx
  let z := treeCoord WS rz
  let y := treeSurface WH s.world x z
  if s.world y.toNat x z ≠ GRASS then s
  else if s.world (y + 1).toNat x z ≠ AIR then s
  else
    { world := setBlock (add_tree s.world x (y + 1) z) y.toNat x z DIRT
      calls := s.calls ++ [(x, y + 1, z)] }

/-- The tree loop: attempt `i` takes the values `rnd (2 * i)` and
`rnd (2 * i + 1)` of the random source. -/
def trees (WS WH : Nat) (add_tree : World → Nat → Int → Nat → World)
    (rnd : Nat → Nat) (w : World) : TreeState :=
  (List.range tree_cnt).foldl
    (fun s i => treeAttempt WS WH add_tree s (rnd (2 * i)) (rnd (2 * i + 1)))
    { world := w, calls := [] }

/-! ## Ores (lines 179-193) -/

/-- The grid together with the number of `randInt(0, 19)` draws consumed. -/
structure OreState where
  world : World
  used : Nat

/-- Lines 182-190 at one voxel; `draw k` is the value of the `k`-th call of
`randInt(0, 19)`. -/
def oreCell (draw : Nat → Nat) (s : OreState) (y x z : Nat) : OreState :=
  if s.world y x z ≠ STONE then s
  else
    let r := u8 (draw s.used)
    if r = 0 then { world := setBlock s.world y x z COAL_ORE, used := s.used + 1 }
    else if r = 1 then { world := setBlock s.world y x z IRON_ORE, used := s.used + 1 }
    else { world := s.world, used := s.used + 1 }

/-- The ore loops: `y` from 1 below `WORLD_HEIGHT`, then `x`, then `z`. -/
def ores (WS WH : Nat) (draw : Nat → Nat) (w : World) : OreState :=
  (List.range' 1 (WH - 1)).foldl
    (fun s y => (List.range WS).foldl
      (fun s x => (List.range WS).foldl (fun s z => oreCell draw s y x z) s) s)
    { world := w, used := 0 }

/-! ## Spawn (lines 198-205) -/

/-- Modelled from the spec: the record `player_t` of `player.h`, which is not
part of the sources; the spec gives it three integer fields x, y, z. -/
structure Player where
  x : Nat
  y : Nat
  z : Nat
  deriving DecidableEq, Repr

/-- The loop of lines 202-205 from `player.y = y`, with at most `fuel`
evaluations of its condition. -/
def spawnLoop (WH : Nat) (w : World) (x z : Nat) : Nat → Nat → Nat
  | 0, y => y
  | fuel + 1, y =>
    if (y : Int) ≤ (WH : Int) - 1 then
      if w y x z = AIR then y else spawnLoop WH w x z fuel (y + 1)
    else y

/-- Lines 198-205.  The loop condition is evaluated at most `WORLD_HEIGHT + 1`
times, which is the fuel given. -/
def spawn (WS WH : Nat) (w : World) : Player :=
  let x := WS / 2
  let z := WS / 2
  { x := x, y := spawnLoop WH w x z (WH + 1) 0, z := z }

/-! ## The generator -/

/-- The function `generate_natural`: the grid and the player it leaves. -/
def generate_natural (WS WH : Nat) (low high : Nat → Nat → Nat)
    (add_tree : World → Nat → Int → Nat → World) (rnd draw : Nat → Nat)
    (w : World) : World × Player :=
  let w1 := baseLayers WS w
  let w2 := terrain WS WH (coarseGrid low high) w1
  let w3 := shoreline WS WH w2
  let w4 := (trees WS WH add_tree rnd w3).world
  let w5 := (ores WS WH draw w4).world
  (w5, spawn WS WH w5)

/-! ## Predicates used in the statements -/

/-- Every GRASS voxel of the grid lies at a height `y` with
`WATER_LEVEL ≤ y < WORLD_HEIGHT`. -/
def GrassAbove (WH : Nat) (w : World) : Prop :=
  ∀ y x z, w y x z = GRASS → WATER_LEVEL ≤ y ∧ y < WH

/-- The voxel `(y, x, z)` of the grid `w` is one the shoreline pass may turn
into SAND: it is GRASS or DIRT, at height `WATER_LEVEL - 1` or `WATER_LEVEL`,
and `w` has WATER at the same height at some `(x', z')` inside the world with
`|x - x'| ≤ 2` and `|z - z'| ≤ 2`. -/
def SandSource (WS : Nat) (w : World) (y x z : Nat) : Prop :=
  (w y x z = GRASS ∨ w y x z = DIRT) ∧ (y = WATER_LEVEL - 1 ∨ y = WATER_LEVEL) ∧
    ∃ x' z', x' < WS ∧ z' < WS ∧ x' ≤ x + 2 ∧ x ≤ x' + 2 ∧ z' ≤ z + 2 ∧ z ≤ z' + 2 ∧
      w y x' z' = WATER

/-- The grid `w` differs from `w0` only at voxels that are SAND in `w` and
were a `SandSource` of `w0`. -/
def ShoreRel (WS : Nat) (w0 w : World) : Prop :=
  ∀ y x z, w y x z = w0 y x z ∨ (w y x z = SAND ∧ SandSource WS w0 y x z)

/-! ## Sample grids -/

/-- A grid with one GRASS voxel at `(WATER_LEVEL, 0, 0)`, WATER on the rest of
that level, and AIR elsewhere. -/
def shoreSample : World :=
  fun y x z => if y = 5 ∧ x = 0 ∧ z = 0 then GRASS else if y = 5 then WATER else AIR

/-- A grid whose columns are DIRT up to height 4, GRASS at height 5 and AIR
above. -/
def meadowSample : World :=
  fun y _ _ => if y < 5 then DIRT else if y = 5 then GRASS else AIR

/-- A stand-in for `add_tree` that only sets a trunk voxel at the root. -/
def trunkOnly : World → Nat → Int → Nat → World :=
  fun w x y z => setBlock w y.toNat x z (OTHER 0)

/-! ## Visiting order of the ore loops -/

/-- The voxel of a grid at a triple `(y, x, z)`. -/
def voxel (w : World) (c : Nat × Nat × Nat) : Block := w c.1 c.2.1 c.2.2

/-- The voxels the ore loops visit, as triples `(y, x, z)` in the order of the
visit: the height from 1 to `WORLD_HEIGHT - 1`, then `x`, then `z`. -/
def oreCells (WS WH : Nat) : List (Nat × Nat × Nat) :=
  List.product (List.range' 1 (WH - 1)) (List.product (List.range WS) (List.range WS))

/-- The number of STONE voxels of `w` among the triples of the list that come
before `c`. -/
def stoneBefore (w : World) : List (Nat × Nat × Nat) → Nat × Nat × Nat → Nat
  | [], _ => 0
  | a :: t, c =>
    if a = c then 0 else (if voxel w a = STONE then 1 else 0) + stoneBefore w t c

/-- The material the spec gives a STONE voxel for its draw `r`: COAL_ORE for 0,
IRON_ORE for 1, STONE for every other value. -/
def oreMaterial (r : Nat) : Block :=
  if r = 0 then COAL_ORE else if r = 1 then IRON_ORE else STONE

/-- A grid of STONE below height 3 and AIR above. -/
def quarrySample : World :=
  fun y _ _ => if y < 3 then STONE else AIR

/-! ## The shoreline rule as the spec words it -/

/-- The condition under which the spec turns the voxel `(y, x, z)` of the
grid `w` into SAND: the voxel is GRASS or DIRT, the voxel directly above it is
AIR or WATER, and `w` has WATER at the same height at some `(x', z')` inside
the world with `|x - x'| ≤ 2` and `|z - z'| ≤ 2`. -/
def sandRule (WS : Nat) (w : World) (y x z : Nat) : Prop :=
  (w y x z = GRASS ∨ w y x z = DIRT) ∧ (w (y + 1) x z = AIR ∨ w (y + 1) x z = WATER) ∧
    ∃ x', x' < WS ∧ ∃ z', z' < WS ∧
      (x' ≤ x + 2 ∧ x ≤ x' + 2 ∧ z' ≤ z + 2 ∧ z ≤ z' + 2 ∧ w y x' z' = WATER)

instance (WS : Nat) (w : World) (y x z : Nat) : Decidable (sandRule WS w y x z) := by
  unfold sandRule; infer_instance

/-- The shoreline pass as a simultaneous rewrite of the grid `w`: a voxel of
the world at height `WATER_LEVEL - 1` or `WATER_LEVEL` that meets `sandRule` in
`w` is SAND, every other voxel keeps its value. -/
def shorelineSpec (WS : Nat) (w : World) : World :=
  fun y x z =>
    if (y = WATER_LEVEL - 1 ∨ y = WATER_LEVEL) ∧ x < WS ∧ z < WS ∧ sandRule WS w y x z
    then SAND else w y x z

/-! # Properties -/

/-! ## Machine integers and the sampler -/

theorem denom_eq : denom = 36 := by decide

theorem u8_of_lt (n : Nat) (h : n < 256) : u8 (n : Int) = n := by
  unfold u8; omega

theorem u16_of_lt (n : Nat) (h : n < 65536) : u16 (n : Int) = n := by
  unfold u16; omega

theorem u8_inv (lx : Nat) (h : lx < GRID_STEP) :
    u8 ((GRID_STEP : Int) - (lx : Int)) = GRID_STEP - lx := by
  unfold u8 GRID_STEP at *; omega

theorem weightedSum_eq (h00 h10 h01 h11 lx lz : Nat)
    (h1 : h00 ≤ 255) (h2 : h10 ≤ 255) (h3 : h01 ≤ 255) (h4 : h11 ≤ 255)
    (hlx : lx < GRID_STEP) (hlz : lz < GRID_STEP) :
    weightedSum h00 h10 h01 h11 lx lz = (exactSum h00 h10 h01 h11 lx lz : Int) := by
  unfold weightedSum exactSum
  simp only [u8_inv lx hlx, u8_inv lz hlz, u16_of_lt h00 (by omega), u16_of_lt h10 (by omega),
    u16_of_lt h01 (by omega), u16_of_lt h11 (by omega)]
  push_cast
  rfl

theorem exactSum_bounds (a b h00 h10 h01 h11 lx lz : Nat)
    (hlx : lx < GRID_STEP) (hlz : lz < GRID_STEP)
    (h1 : a ≤ h00 ∧ h00 ≤ b) (h2 : a ≤ h10 ∧ h10 ≤ b)
    (h3 : a ≤ h01 ∧ h01 ≤ b) (h4 : a ≤ h11 ∧ h11 ≤ b) :
    36 * a ≤ exactSum h00 h10 h01 h11 lx lz ∧ exactSum h00 h10 h01 h11 lx lz ≤ 36 * b := by
  unfold GRID_STEP at hlx hlz
  unfold exactSum GRID_STEP
  interval_cases lx <;> interval_cases lz <;> omega

theorem interpolate_eq (h00 h10 h01 h11 lx lz : Nat)
    (h1 : h00 ≤ 255) (h2 : h10 ≤ 255) (h3 : h01 ≤ 255) (h4 : h11 ≤ 255)
    (hlx : lx < GRID_STEP) (hlz : lz < GRID_STEP) :
    interpolate h00 h10 h01 h11 lx lz = exactSum h00 h10 h01 h11 lx lz / 36 := by
  have hb := exactSum_bounds 0 255 h00 h10 h01 h11 lx lz hlx hlz
    ⟨Nat.zero_le _, h1⟩ ⟨Nat.zero_le _, h2⟩ ⟨Nat.zero_le _, h3⟩ ⟨Nat.zero_le _, h4⟩
  unfold interpolate
  simp only [weightedSum_eq h00 h10 h01 h11 lx lz h1 h2 h3 h4 hlx hlz, denom_eq]
  rw [u16_of_lt _ (by omega)]
  have hdiv : ((exactSum h00 h10 h01 h11 lx lz : Nat) : Int) / ((36 : Nat) : Int)
      = ((exactSum h00 h10 h01 h11 lx lz / 36 : Nat) : Int) := by push_cast; rfl
  rw [hdiv, u16_of_lt _ (by omega)]

theorem interpolate_between (a b h00 h10 h01 h11 lx lz : Nat)
    (hb : b ≤ 255) (hlx : lx < GRID_STEP) (hlz : lz < GRID_STEP)
    (h1 : a ≤ h00 ∧ h00 ≤ b) (h2 : a ≤ h10 ∧ h10 ≤ b)
    (h3 : a ≤ h01 ∧ h01 ≤ b) (h4 : a ≤ h11 ∧ h11 ≤ b) :
    a ≤ interpolate h00 h10 h01 h11 lx lz ∧ interpolate h00 h10 h01 h11 lx lz ≤ b := by
  have hs := exactSum_bounds a b h00 h10 h01 h11 lx lz hlx hlz h1 h2 h3 h4
  rw [interpolate_eq h00 h10 h01 h11 lx lz (by omega) (by omega) (by omega) (by omega) hlx hlz]
  omega

theorem lerpOf_lt (x : Nat) : lerpOf x < GRID_STEP := by
  unfold lerpOf gridIndex u8 GRID_STEP
  omega

theorem clampIndex_gridIndex (WS x : Nat) (hx : x < WS) :
    clampIndex WS (gridIndex x) < GRID_SIZE WS ∧
      u8 ((clampIndex WS (gridIndex x) : Int) + 1) < GRID_SIZE WS := by
  unfold clampIndex gridIndex GRID_SIZE u8 GRID_STEP
  constructor
  · split <;> omega
  · split <;> omega

theorem coarseGrid_range (low high : Nat → Nat → Nat) (gx gz : Nat)
    (h : 3 ≤ low gx gz ∧ low gx gz ≤ 10 ∧ high gx gz ≤ 4) :
    3 ≤ coarseGrid low high gx gz ∧ coarseGrid low high gx gz ≤ 14 := by
  unfold coarseGrid u8
  omega

theorem rawHeight_between (WS : Nat) (grid : Nat → Nat → Nat) (a b x z : Nat)
    (hb : b ≤ 255) (hx : x < WS) (hz : z < WS)
    (hg : ∀ gx gz, gx < GRID_SIZE WS → gz < GRID_SIZE WS → a ≤ grid gx gz ∧ grid gx gz ≤ b) :
    a ≤ rawHeight WS grid x z ∧ rawHeight WS grid x z ≤ b := by
  obtain ⟨bx0, bx1⟩ := clampIndex_gridIndex WS x hx
  obtain ⟨bz0, bz1⟩ := clampIndex_gridIndex WS z hz
  unfold rawHeight
  exact interpolate_between a b _ _ _ _ _ _ hb (lerpOf_lt x) (lerpOf_lt z)
    (hg _ _ bx0 bz0) (hg _ _ bx1 bz0) (hg _ _ bx0 bz1) (hg _ _ bx1 bz1)

/-! ## Claims -/

/-- C1: for the corner samples h00 = 4, h10 = 10, h01 = 4, h11 = 10 with
lerp_x = 3 and lerp_z = 0 the weighted sum of the sampler is exactly 252, the
divisor `denom` is 36, and the truncating division leaves the raw height 7;
the sampler returns this value at column (3, 0) of a grid holding these four
corners. -/
theorem C1_worked_example :
    weightedSum 4 10 4 10 3 0 = 252 ∧ denom = 36 ∧
      interpolate 4 10 4 10 3 0 = 7 ∧
      rawHeight 12 (fun gx _ => if gx = 0 then 4 else 10) 3 0 = 7 := by
  decide

/-- C2: for every coarse grid whose samples are `low + high` with `low` in
[3, 10] and `high` in [0, 4], and every column (x, z) with x, z below
WORLD_SIZE, the interpolated height before the bias lies in [0, 14]. -/
theorem C2_raw_height_range (WS : Nat) (low high : Nat → Nat → Nat) (x z : Nat)
    (hx : x < WS) (hz : z < WS)
    (hd : ∀ gx gz, gx < GRID_SIZE WS → gz < GRID_SIZE WS →
      3 ≤ low gx gz ∧ low gx gz ≤ 10 ∧ high gx gz ≤ 4) :
    0 ≤ rawHeight WS (coarseGrid low high) x z ∧
      rawHeight WS (coarseGrid low high) x z ≤ 14 := by
  refine ⟨Nat.zero_le _, ?_⟩
  exact (rawHeight_between WS (coarseGrid low high) 3 14 x z (by omega) hx hz
    (fun gx gz h1 h2 => coarseGrid_range low high gx gz (hd gx gz h1 h2))).2

/-- Witness of C2: a 12 x 12 world, every lattice point drawing low = 10 and
high = 4, sampled at column (7, 5). -/
theorem C2_raw_height_range_witness :
    rawHeight 12 (coarseGrid (fun _ _ => 10) (fun _ _ => 4)) 7 5 ≤ 14 :=
  (C2_raw_height_range 12 (fun _ _ => 10) (fun _ _ => 4) 7 5 (by decide) (by decide)
    (fun _ _ _ _ => by simp)).2

/-! ## Column layering -/

theorem stone_top_eq (h : Nat) (h3 : 3 < h) (hh : h ≤ 255) :
    u8 ((h : Int) - 3) = h - 3 := by
  unfold u8; omega

theorem dirt_top_eq (WH h : Nat) (hh : h ≤ 255) (hWH : 1 ≤ WH) :
    u8 (if (h : Int) > (WH : Int) - 1 then (WH : Int) - 1 else (h : Int)) = min h (WH - 1) := by
  unfold u8; split <;> omega

theorem dirt_bottom_eq (s t : Nat) (ht : t ≤ 255) :
    u8 (if (s : Int) + 1 ≤ (t : Int) then (s : Int) + 1 else (t : Int))
      = if s + 1 ≤ t then s + 1 else t := by
  unfold u8; split <;> split <;> omega

/-- The DIRT fills and the GRASS write of column layering stay inside the
heights 1 .. WORLD_HEIGHT - 1 (for a `uint8_t` height and WORLD_HEIGHT ≥ 2):
`dirt_top` is clamped to WORLD_HEIGHT - 1 and the GRASS write is guarded. -/
theorem layerFills_siblings_in_range (WH x z h : Nat) (hh : h ≤ 255) (hWH : 2 ≤ WH)
    (f : Fill) (hf : f ∈ layerFills WH x z h) (hid : f.id ≠ STONE) :
    1 ≤ f.y0 ∧ f.y1 ≤ WH - 1 := by
  unfold layerFills at hf
  rw [List.mem_append] at hf
  rcases hf with hg | hg
  · by_cases h3 : h > 3
    · rw [if_pos h3] at hg
      simp only [stone_top_eq h h3 hh, dirt_top_eq WH h hh (by omega), if_pos h3,
        dirt_bottom_eq (h - 3) (min h (WH - 1)) (by omega)] at hg
      rw [List.mem_cons] at hg
      rcases hg with rfl | hg
      · exact absurd rfl hid
      · split_ifs at hg <;> simp at hg <;> subst hg <;> simp only [] <;> omega
    · rw [if_neg h3] at hg
      simp only [dirt_top_eq WH h hh (by omega)] at hg
      split_ifs at hg <;> simp at hg
      subst hg
      simp only []
      omega
  · split_ifs at hg with hc <;> simp at hg
    subst hg
    have h1 := hc.1
    have h2 := hc.2
    unfold WATER_LEVEL at h1
    simp only []
    omega

/-- C3: evaluation at WORLD_HEIGHT = 10 for a column of height 14, the
height the sampler returns when every lattice sample is 10 + 4.  The STONE
fill of that column runs from height 1 to stone_top = 11 and so covers the
heights 10 and 11, above WORLD_HEIGHT - 1 = 9, while the DIRT fill of the same
column is clamped to height 9 and the GRASS write is skipped. -/
theorem C3_stone_fill_exceeds_height :
    columnHeight 12 (coarseGrid (fun _ _ => 10) (fun _ _ => 4)) 0 0 = 14 ∧
      layerFills 10 0 0 14 =
        [⟨0, 1, 0, 0, 11, 0, STONE⟩, ⟨0, 9, 0, 0, 9, 0, DIRT⟩] ∧
      (⟨0, 1, 0, 0, 11, 0, STONE⟩ : Fill).covers 11 0 0 ∧ ¬ (11 ≤ 10 - 1) ∧
      layerColumn 10 (fun _ _ _ => AIR) 0 0 14 11 0 0 = STONE := by
  decide

/-- C8 fails as stated: at WORLD_HEIGHT = 8 and h = 14 the dirt range is empty
(stone_top + 1 = 12 exceeds dirt_top = 7), yet column layering makes a DIRT
fill, which writes DIRT at height 7. -/
theorem C8_counterexample :
    (14 - 3) + 1 > min 14 (8 - 1) ∧
      (⟨0, 7, 0, 0, 7, 0, DIRT⟩ : Fill) ∈ layerFills 8 0 0 14 ∧
      layerColumn 8 (fun _ _ _ => AIR) 0 0 14 7 0 0 = DIRT := by
  decide

/-- C8, amended: for a column of height h with 3 < h (h a `uint8_t` value,
WORLD_HEIGHT at least 1), where stone_top = h - 3 and
dirt_top = min(h, WORLD_HEIGHT - 1), column layering makes exactly one DIRT
fill; it covers the heights stone_top + 1 .. dirt_top when that range is
non-empty, and the single height dirt_top when stone_top + 1 > dirt_top. -/
theorem C8_dirt_band (WH x z h : Nat) (h3 : 3 < h) (hh : h ≤ 255) (hWH : 1 ≤ WH) :
    (layerFills WH x z h).filter (fun f => decide (f.id = DIRT)) =
      [⟨x, if (h - 3) + 1 ≤ min h (WH - 1) then (h - 3) + 1 else min h (WH - 1), z,
        x, min h (WH - 1), z, DIRT⟩] := by
  have hle : min h (WH - 1) ≤ 255 := by omega
  unfold layerFills
  simp only [stone_top_eq h h3 hh, dirt_top_eq WH h hh hWH,
    dirt_bottom_eq (h - 3) (min h (WH - 1)) hle, if_pos h3]
  have hb : (if (h - 3) + 1 ≤ min h (WH - 1) then (h - 3) + 1 else min h (WH - 1))
      ≤ min h (WH - 1) := by split <;> omega
  rw [if_pos hb]
  by_cases hg : h ≥ WATER_LEVEL ∧ (h : Int) < (WH : Int)
  · rw [if_pos hg]; simp [List.filter]
  · rw [if_neg hg]; simp [List.filter]

/-- Witness of C8 (amended): WORLD_HEIGHT = 16, h = 9. -/
theorem C8_dirt_band_witness :
    (layerFills 16 2 3 9).filter (fun f => decide (f.id = DIRT)) =
      [⟨2, 7, 3, 2, 9, 3, DIRT⟩] :=
  C8_dirt_band 16 2 3 9 (by decide) (by decide) (by decide)

/-! ## Spawn -/

theorem spawnLoop_spec (WH : Nat) (w : World) (x z : Nat) :
    ∀ (fuel y : Nat), y ≤ WH → WH - y < fuel →
      (∀ y', y' < y → w y' x z ≠ AIR) →
      y ≤ spawnLoop WH w x z fuel y ∧ spawnLoop WH w x z fuel y ≤ WH ∧
        (∀ y', y' < spawnLoop WH w x z fuel y → w y' x z ≠ AIR) ∧
        (spawnLoop WH w x z fuel y < WH → w (spawnLoop WH w x z fuel y) x z = AIR) := by
  intro fuel
  induction fuel with
  | zero => intro y _ hf; omega
  | succ n ih =>
    intro y hy hf hbelow
    unfold spawnLoop
    by_cases hc : (y : Int) ≤ (WH : Int) - 1
    · rw [if_pos hc]
      by_cases ha : w y x z = AIR
      · rw [if_pos ha]
        exact ⟨le_refl _, hy, hbelow, fun _ => ha⟩
      · rw [if_neg ha]
        have hstep := ih (y + 1) (by omega) (by omega) (by
          intro y' hy'
          rcases Nat.lt_succ_iff_lt_or_eq.mp hy' with hlt | heq
          · exact hbelow y' hlt
          · rw [heq]; exact ha)
        exact ⟨by omega, hstep.2.1, hstep.2.2.1, hstep.2.2.2⟩
    · rw [if_neg hc]
      exact ⟨le_refl _, hy, hbelow, fun hlt => by omega⟩

/-- C4: when the centre column (x = z = WORLD_SIZE / 2) holds AIR at some
height below WORLD_HEIGHT, the resolver leaves player.x = player.z =
WORLD_SIZE / 2 and player.y at the smallest height at which that column is AIR:
player.y is a height of the grid, the voxel there is AIR, and every voxel of
the column below it is not AIR. -/
theorem C4_spawn_lowest_air (WS WH : Nat) (w : World)
    (hair : ∃ y, y < WH ∧ w y (WS / 2) (WS / 2) = AIR) :
    (spawn WS WH w).x = WS / 2 ∧ (spawn WS WH w).z = WS / 2 ∧
      (spawn WS WH w).y < WH ∧
      w (spawn WS WH w).y (spawn WS WH w).x (spawn WS WH w).z = AIR ∧
      (∀ y, y < (spawn WS WH w).y → w y (spawn WS WH w).x (spawn WS WH w).z ≠ AIR) := by
  obtain ⟨y0, hy0, ha0⟩ := hair
  have hs := spawnLoop_spec WH w (WS / 2) (WS / 2) (WH + 1) 0 (Nat.zero_le _) (by omega)
    (fun y' hy' => absurd hy' (Nat.not_lt_zero _))
  have hlt : spawnLoop WH w (WS / 2) (WS / 2) (WH + 1) 0 < WH := by
    by_contra hge
    exact hs.2.2.1 y0 (by omega) ha0
  exact ⟨rfl, rfl, hlt, hs.2.2.2 hlt, hs.2.2.1⟩

/-- Witness of C4: an 8 x 8 x 8 world that is STONE below height 3 and AIR
from height 3 on; the player is put at height 3. -/
theorem C4_spawn_lowest_air_witness :
    (spawn 8 8 (fun y _ _ => if y < 3 then STONE else AIR)).y = 3 ∧
      (spawn 8 8 (fun y _ _ => if y < 3 then STONE else AIR)).y < 8 :=
  ⟨by decide,
    (C4_spawn_lowest_air 8 8 (fun y _ _ => if y < 3 then STONE else AIR)
      ⟨3, by decide, by decide⟩).2.2.1⟩

/-- C5 fails as stated: in a 4 x 4 x 4 world of STONE the centre column holds
no AIR, and the resolver ends with player.y = 4 = WORLD_HEIGHT, not with
WORLD_HEIGHT - 1 = 3. -/
theorem C5_counterexample :
    (∀ y, y < 4 → (fun _ _ _ => STONE : World) y (4 / 2) (4 / 2) ≠ AIR) ∧
      (spawn 4 4 (fun _ _ _ => STONE)).y = 4 ∧
      (spawn 4 4 (fun _ _ _ => STONE)).y ≠ 4 - 1 := by
  decide

/-- C5, amended: when the centre column holds no AIR voxel at any height below
WORLD_HEIGHT, the resolver terminates with player.y equal to WORLD_HEIGHT, one
above the top layer of the grid; player.x and player.z are WORLD_SIZE / 2. -/
theorem C5_spawn_solid_column (WS WH : Nat) (w : World)
    (hsolid : ∀ y, y < WH → w y (WS / 2) (WS / 2) ≠ AIR) :
    (spawn WS WH w).y = WH ∧ (spawn WS WH w).x = WS / 2 ∧ (spawn WS WH w).z = WS / 2 := by
  have hs := spawnLoop_spec WH w (WS / 2) (WS / 2) (WH + 1) 0 (Nat.zero_le _) (by omega)
    (fun y' hy' => absurd hy' (Nat.not_lt_zero _))
  refine ⟨?_, rfl, rfl⟩
  by_contra hne
  have hlt : spawnLoop WH w (WS / 2) (WS / 2) (WH + 1) 0 < WH :=
    lt_of_le_of_ne hs.2.1 hne
  exact hsolid _ hlt (hs.2.2.2 hlt)

/-- Witness of C5 (amended): a 6 x 6 x 6 world of STONE. -/
theorem C5_spawn_solid_column_witness :
    (spawn 6 6 (fun _ _ _ => STONE)).y = 6 :=
  (C5_spawn_solid_column 6 6 (fun _ _ _ => STONE) (fun _ _ => by simp)).1

/-! ## Trees -/

theorem treeCoordExpr_range (WS r : Nat) (h6 : 6 ≤ WS) :
    2 ≤ treeCoordExpr WS r ∧ treeCoordExpr WS r ≤ (WS : Int) - 4 := by
  unfold treeCoordExpr
  have hpos : (0 : Int) < (WS : Int) - 1 - 4 := by omega
  have h0 := Int.emod_nonneg (r : Int) (ne_of_gt hpos)
  have h1 := Int.emod_lt_of_pos (r : Int) hpos
  omega

/-- C10: for every WORLD_SIZE of at least 6 and every value r returned by the
random source, the coordinate 2 + (r mod (WORLD_SIZE - 1 - 4)) lies in
[2, WORLD_SIZE - 3], two voxels or more away from both world edges; for every
WORLD_SIZE up to 255 (the sizes the `uint8_t` column counters can reach) the
`uint8_t` in which a tree attempt stores it holds that same value. -/
theorem C10_tree_coord_margin (WS r : Nat) (h6 : 6 ≤ WS) :
    2 ≤ treeCoordExpr WS r ∧ treeCoordExpr WS r ≤ (WS : Int) - 3 ∧
      (WS ≤ 255 → (treeCoord WS r : Int) = treeCoordExpr WS r ∧
        2 ≤ treeCoord WS r ∧ treeCoord WS r ≤ WS - 3) := by
  have hr := treeCoordExpr_range WS r h6
  refine ⟨hr.1, by omega, ?_⟩
  intro h255
  unfold treeCoord u8
  omega

/-- Witness of C10: WORLD_SIZE = 32 and r = 1000 give the coordinate 3. -/
theorem C10_tree_coord_margin_witness :
    treeCoord 32 1000 = 3 ∧ (2 : Int) ≤ treeCoordExpr 32 1000 :=
  ⟨by decide, (C10_tree_coord_margin 32 1000 (by decide)).1⟩

/-! ## Grass stays above the water level -/

theorem foldl_preserves {σ α : Type} (P : σ → Prop) (f : σ → α → σ) (l : List α)
    (hstep : ∀ s a, P s → P (f s a)) : ∀ s, P s → P (l.foldl f s) := by
  induction l with
  | nil => intro s hs; exact hs
  | cons a t ih => intro s hs; exact ih _ (hstep s a hs)

theorem grassAbove_fill (WH : Nat) (w : World) (f : Fill)
    (hf : f.id = GRASS → f.y0 = f.y1 ∧ WATER_LEVEL ≤ f.y0 ∧ f.y0 < WH)
    (hw : GrassAbove WH w) : GrassAbove WH (f.run w) := by
  intro y x z hy
  unfold Fill.run fill_space at hy
  by_cases hc : f.x0 ≤ x ∧ x ≤ f.x1 ∧ f.y0 ≤ y ∧ y ≤ f.y1 ∧ f.z0 ≤ z ∧ z ≤ f.z1
  · rw [if_pos hc] at hy
    have := hf hy
    omega
  · rw [if_neg hc] at hy
    exact hw y x z hy

theorem grassAbove_setBlock (WH : Nat) (w : World) (y x z : Nat) (id : Block)
    (hid : id ≠ GRASS) (hw : GrassAbove WH w) : GrassAbove WH (setBlock w y x z id) := by
  intro y' x' z' h
  unfold setBlock at h
  by_cases hc : y' = y ∧ x' = x ∧ z' = z
  · rw [if_pos hc] at h; exact absurd h hid
  · rw [if_neg hc] at h; exact hw y' x' z' h

theorem layerFills_grass (WH x z h : Nat) (f : Fill) (hf : f ∈ layerFills WH x z h)
    (hid : f.id = GRASS) : f.y0 = f.y1 ∧ WATER_LEVEL ≤ f.y0 ∧ f.y0 < WH := by
  unfold layerFills at hf
  rw [List.mem_append] at hf
  rcases hf with hg | hg
  · exfalso
    split_ifs at hg <;> simp at hg
    · obtain rfl | ⟨-, rfl⟩ := hg <;> simp at hid
    · obtain rfl | ⟨-, rfl⟩ := hg <;> simp at hid
    · obtain ⟨-, rfl⟩ := hg; simp at hid
    · obtain ⟨-, rfl⟩ := hg; simp at hid
  · split_ifs at hg with hc <;> simp at hg
    subst hg
    have h2 := hc.2
    show h = h ∧ WATER_LEVEL ≤ h ∧ h < WH
    exact ⟨rfl, hc.1, by omega⟩

theorem grassAbove_layerColumn (WH : Nat) (w : World) (x z h : Nat)
    (hw : GrassAbove WH w) : GrassAbove WH (layerColumn WH w x z h) := by
  unfold layerColumn
  have key : ∀ (l : List Fill), (∀ f, f ∈ l → f ∈ layerFills WH x z h) →
      ∀ w', GrassAbove WH w' → GrassAbove WH (l.foldl Fill.run w') := by
    intro l
    induction l with
    | nil => intro _ w' hw'; exact hw'
    | cons a t ih =>
      intro hl w' hw'
      exact ih (fun f hf => hl f (List.mem_cons_of_mem _ hf)) _
        (grassAbove_fill WH w' a
          (layerFills_grass WH x z h a (hl a (List.mem_cons_self _ _))) hw')
  exact key _ (fun _ hf => hf) w hw

theorem grassAbove_terrain (WS WH : Nat) (grid : Nat → Nat → Nat) (w : World)
    (hw : GrassAbove WH w) : GrassAbove WH (terrain WS WH grid w) := by
  unfold terrain
  apply foldl_preserves (GrassAbove WH) _ _ _ w hw
  intro s x hs
  apply foldl_preserves (GrassAbove WH) _ _ _ s hs
  intro s' z hs'
  exact grassAbove_layerColumn WH s' x z _ hs'

theorem grassAbove_baseLayers (WS WH : Nat) (w : World)
    (hw : GrassAbove WH w) : GrassAbove WH (baseLayers WS w) := by
  unfold baseLayers
  exact grassAbove_fill WH _ ⟨0, 1, 0, WS - 1, WATER_LEVEL, WS - 1, WATER⟩
    (fun h => by simp at h)
    (grassAbove_fill WH w ⟨0, 0, 0, WS - 1, 0, WS - 1, BEDROCK⟩ (fun h => by simp at h) hw)

theorem grassAbove_shoreCell (WS WH : Nat) (w : World) (y x z : Nat)
    (hw : GrassAbove WH w) : GrassAbove WH (shoreCell WS WH w y x z) := by
  unfold shoreCell
  simp only []
  split_ifs
  all_goals first
    | exact hw
    | exact grassAbove_setBlock WH w y x z SAND (by decide) hw

theorem grassAbove_shoreline (WS WH : Nat) (w : World)
    (hw : GrassAbove WH w) : GrassAbove WH (shoreline WS WH w) := by
  have hlevel : ∀ (w' : World) (y : Nat), GrassAbove WH w' →
      GrassAbove WH (shoreLevel WS WH w' y) := by
    intro w' y hw'
    unfold shoreLevel
    apply foldl_preserves (GrassAbove WH) _ _ _ w' hw'
    intro s x hs
    apply foldl_preserves (GrassAbove WH) _ _ _ s hs
    intro s' z hs'
    exact grassAbove_shoreCell WS WH s' y x z hs'
  have hlevels : ∀ (ys : List Nat) (w' : World), GrassAbove WH w' →
      GrassAbove WH (shoreLevels WS WH w' ys) := by
    intro ys
    induction ys with
    | nil => intro w' hw'; exact hw'
    | cons y t ih =>
      intro w' hw'
      unfold shoreLevels
      split_ifs
      · exact hw'
      · exact ih _ (hlevel w' y hw')
  exact hlevels _ w hw

theorem grassAbove_oreCell (WH : Nat) (draw : Nat → Nat) (s : OreState) (y x z : Nat)
    (hs : GrassAbove WH s.world) : GrassAbove WH (oreCell draw s y x z).world := by
  unfold oreCell
  simp only []
  split_ifs
  all_goals first
    | exact hs
    | exact grassAbove_setBlock WH s.world y x z _ (by decide) hs

theorem grassAbove_ores (WS WH : Nat) (draw : Nat → Nat) (w : World)
    (hw : GrassAbove WH w) : GrassAbove WH (ores WS WH draw w).world := by
  unfold ores
  apply foldl_preserves (fun s : OreState => GrassAbove WH s.world) _ _ _ _ hw
  intro s y hs
  apply foldl_preserves (fun s : OreState => GrassAbove WH s.world) _ _ _ s hs
  intro s' x hs'
  apply foldl_preserves (fun s : OreState => GrassAbove WH s.world) _ _ _ s' hs'
  intro s'' z hs''
  exact grassAbove_oreCell WH draw s'' y x z hs''

theorem grassAbove_trees (WS WH : Nat) (add_tree : World → Nat → Int → Nat → World)
    (rnd : Nat → Nat) (w : World)
    (hadd : ∀ w' x y z, GrassAbove WH w' → GrassAbove WH (add_tree w' x y z))
    (hw : GrassAbove WH w) : GrassAbove WH (trees WS WH add_tree rnd w).world := by
  unfold trees
  apply foldl_preserves (fun s : TreeState => GrassAbove WH s.world) _ _ _ _ hw
  intro s i hs
  unfold treeAttempt
  simp only []
  split_ifs
  · exact hs
  · exact hs
  · exact grassAbove_setBlock WH _ _ _ _ DIRT (by decide) (hadd _ _ _ _ hs)

/-- C6: starting from a grid that holds no GRASS, after the base layers and
the column layering of every column (for every coarse grid), after the
shoreline pass, and after ore seeding (for every sequence of draws), every
GRASS voxel lies at a height y with WATER_LEVEL ≤ y < WORLD_HEIGHT.  The same
holds for the grid `generate_natural` returns, with the tree stage in between,
whenever `add_tree` itself puts no GRASS outside those heights. -/
theorem C6_grass_never_under_water (WS WH : Nat) (grid : Nat → Nat → Nat)
    (draw : Nat → Nat) (w : World) (hw : ∀ y x z, w y x z ≠ GRASS) :
    GrassAbove WH (terrain WS WH grid (baseLayers WS w)) ∧
      GrassAbove WH (shoreline WS WH (terrain WS WH grid (baseLayers WS w))) ∧
      GrassAbove WH
        (ores WS WH draw (shoreline WS WH (terrain WS WH grid (baseLayers WS w)))).world ∧
      ∀ (low high : Nat → Nat → Nat) (add_tree : World → Nat → Int → Nat → World)
        (rnd : Nat → Nat),
        (∀ w' x y z, GrassAbove WH w' → GrassAbove WH (add_tree w' x y z)) →
        GrassAbove WH (generate_natural WS WH low high add_tree rnd draw w).1 := by
  have h0 : GrassAbove WH w := fun y x z h => absurd h (hw y x z)
  have hb := grassAbove_baseLayers WS WH w h0
  have h1 := grassAbove_terrain WS WH grid _ hb
  have h2 := grassAbove_shoreline WS WH _ h1
  refine ⟨h1, h2, grassAbove_ores WS WH draw _ h2, ?_⟩
  intro low high add_tree rnd hadd
  unfold generate_natural
  exact grassAbove_ores WS WH draw _
    (grassAbove_trees WS WH add_tree rnd _ hadd
      (grassAbove_shoreline WS WH _ (grassAbove_terrain WS WH (coarseGrid low high) _ hb)))

/-- Witness of C6: an 8 x 8 world of height 16, initially AIR, with every
lattice sample 9 and every ore draw 0. -/
theorem C6_grass_never_under_water_witness :
    GrassAbove 16
      (ores 8 16 (fun _ => 0)
        (shoreline 8 16 (terrain 8 16 (fun _ _ => 9) (baseLayers 8 (fun _ _ _ => AIR))))).world :=
  (C6_grass_never_under_water 8 16 (fun _ _ => 9) (fun _ => 0) (fun _ _ _ => AIR)
    (fun _ _ _ => by simp)).2.2.1

/-! ## Shoreline pass -/

theorem foldl_preserves_mem {σ α : Type} (P : σ → Prop) (f : σ → α → σ) :
    ∀ (l : List α), (∀ s a, a ∈ l → P s → P (f s a)) → ∀ s, P s → P (l.foldl f s) := by
  intro l
  induction l with
  | nil => intro _ s hs; exact hs
  | cons a t ih =>
    intro hstep s hs
    exact ih (fun s' b hb hs' => hstep s' b (List.mem_cons_of_mem _ hb) hs') _
      (hstep s a (List.mem_cons_self _ _) hs)

theorem offsets_range (b : Int) (hb : b ∈ offsets) : -2 ≤ b ∧ b ≤ 2 := by
  unfold offsets at hb
  simp only [List.mem_cons, List.mem_singleton, List.not_mem_nil, or_false] at hb
  omega

theorem nearWater_sound (WS : Nat) (w : World) (y x z : Nat) (hWS : WS ≤ 127)
    (hx : x < WS) (hz : z < WS) (hn : nearWater WS w y x z = true) :
    ∃ x' z', x' < WS ∧ z' < WS ∧ x' ≤ x + 2 ∧ x ≤ x' + 2 ∧ z' ≤ z + 2 ∧ z ≤ z' + 2 ∧
      w y x' z' = WATER := by
  unfold nearWater at hn
  rw [List.any_eq_true] at hn
  obtain ⟨bx, hbx, hn⟩ := hn
  simp only [] at hn
  split_ifs at hn with hcx
  rw [List.any_eq_true] at hn
  obtain ⟨bz, hbz, hn⟩ := hn
  split_ifs at hn with hcz
  have hwater := of_decide_eq_true hn
  have rx := offsets_range bx hbx
  have rz := offsets_range bz hbz
  refine ⟨(i8 (i8 (x : Int) + bx)).toNat, (i8 (i8 (z : Int) + bz)).toNat, ?_, ?_, ?_, ?_, ?_, ?_,
    hwater⟩ <;> (unfold i8 at *; omega)

theorem shoreRel_refl (WS : Nat) (w : World) : ShoreRel WS w w :=
  fun _ _ _ => Or.inl rfl

theorem shoreRel_shoreCell (WS WH : Nat) (w0 w : World) (y x z : Nat) (hWS : WS ≤ 127)
    (hy : y = WATER_LEVEL - 1 ∨ y = WATER_LEVEL) (hx : x < WS) (hz : z < WS)
    (hrel : ShoreRel WS w0 w) : ShoreRel WS w0 (shoreCell WS WH w y x z) := by
  unfold shoreCell
  simp only []
  split_ifs with h1 h2 h3 h4
  · exact hrel
  · exact hrel
  · exact hrel
  · -- the voxel is rewritten
    intro y' x' z'
    unfold setBlock
    by_cases hc : y' = y ∧ x' = x ∧ z' = z
    · rw [if_pos hc]
      obtain ⟨rfl, rfl, rfl⟩ := hc
      right
      refine ⟨rfl, ?_, hy, ?_⟩
      · rcases hrel y' x' z' with he | ⟨hs, _⟩
        · rw [← he]
          by_cases hg : w y' x' z' = GRASS
          · exact Or.inl hg
          · by_cases hd : w y' x' z' = DIRT
            · exact Or.inr hd
            · exact absurd ⟨hg, hd⟩ h1
        · exfalso
          apply h1
          rw [hs]
          exact ⟨by decide, by decide⟩
      · obtain ⟨nx, nz, b1, b2, b3, b4, b5, b6, hwat⟩ :=
          nearWater_sound WS w y' x' z' hWS hx hz h4
        refine ⟨nx, nz, b1, b2, b3, b4, b5, b6, ?_⟩
        rcases hrel y' nx nz with he | ⟨hs, _⟩
        · rw [← he]; exact hwat
        · rw [hs] at hwat; exact absurd hwat (by decide)
    · rw [if_neg hc]
      exact hrel y' x' z'
  · exact hrel

theorem shoreRel_shoreLevel (WS WH : Nat) (w0 w : World) (y : Nat) (hWS : WS ≤ 127)
    (hy : y = WATER_LEVEL - 1 ∨ y = WATER_LEVEL) (hrel : ShoreRel WS w0 w) :
    ShoreRel WS w0 (shoreLevel WS WH w y) := by
  unfold shoreLevel
  apply foldl_preserves_mem (ShoreRel WS w0) _ _ _ w hrel
  intro s x hx hs
  apply foldl_preserves_mem (ShoreRel WS w0) _ _ _ s hs
  intro s' z hz hs'
  exact shoreRel_shoreCell WS WH w0 s' y x z hWS hy (List.mem_range.mp hx)
    (List.mem_range.mp hz) hs'

theorem shoreRel_shoreLevels (WS WH : Nat) (w0 : World) (hWS : WS ≤ 127) :
    ∀ (ys : List Nat), (∀ y, y ∈ ys → y = WATER_LEVEL - 1 ∨ y = WATER_LEVEL) →
      ∀ w, ShoreRel WS w0 w → ShoreRel WS w0 (shoreLevels WS WH w ys) := by
  intro ys
  induction ys with
  | nil => intro _ w hw; exact hw
  | cons y t ih =>
    intro hys w hw
    unfold shoreLevels
    split_ifs
    · exact hw
    · exact ih (fun y' hy' => hys y' (List.mem_cons_of_mem _ hy')) _
        (shoreRel_shoreLevel WS WH w0 w y hWS (hys y (List.mem_cons_self _ _)) hw)

theorem shoreRel_shoreline (WS WH : Nat) (w : World) (hWS : WS ≤ 127) :
    ShoreRel WS w (shoreline WS WH w) := by
  unfold shoreline
  apply shoreRel_shoreLevels WS WH w hWS _ _ w (shoreRel_refl WS w)
  intro y hy
  simp only [List.mem_cons, List.mem_singleton, List.not_mem_nil, or_false] at hy
  exact hy

/-- C7: for every voxel grid, with WORLD_SIZE ≤ 127, every voxel that is SAND
after the shoreline pass and was not SAND before it was GRASS or DIRT in the
grid before the pass, lies at height WATER_LEVEL - 1 or WATER_LEVEL, and had
in the grid before the pass a WATER voxel at the same height, inside the
world, within Chebyshev distance 2. -/
theorem C7_shoreline_sound (WS WH : Nat) (w : World) (y x z : Nat) (hWS : WS ≤ 127)
    (hafter : shoreline WS WH w y x z = SAND) (hbefore : w y x z ≠ SAND) :
    (w y x z = GRASS ∨ w y x z = DIRT) ∧ (y = WATER_LEVEL - 1 ∨ y = WATER_LEVEL) ∧
      ∃ x' z', x' < WS ∧ z' < WS ∧ x' ≤ x + 2 ∧ x ≤ x' + 2 ∧ z' ≤ z + 2 ∧ z ≤ z' + 2 ∧
        w y x' z' = WATER := by
  rcases shoreRel_shoreline WS WH w hWS y x z with he | ⟨_, hsrc⟩
  · rw [he] at hafter; exact absurd hafter hbefore
  · exact hsrc

/-- Witness of C7: in a 3 x 3 world of height 8 the GRASS voxel of
`shoreSample` at (5, 0, 0) becomes SAND. -/
theorem C7_shoreline_sound_witness :
    shoreline 3 8 shoreSample 5 0 0 = SAND ∧
      (shoreSample 5 0 0 = GRASS ∨ shoreSample 5 0 0 = DIRT) :=
  have hafter : shoreline 3 8 shoreSample 5 0 0 = SAND := by decide
  ⟨hafter, (C7_shoreline_sound 3 8 shoreSample 5 0 0 (by decide) hafter (by decide)).1⟩

theorem scanDown_le (w : World) (x z : Nat) : ∀ n, scanDown w x z n ≤ n := by
  intro n
  induction n with
  | zero => simp [scanDown]
  | succ k ih =>
    unfold scanDown
    split_ifs
    · omega
    · exact le_refl _

theorem treeSurface_range (WH : Nat) (w : World) (x z : Nat) (h2 : 2 ≤ WH) (h129 : WH ≤ 129) :
    0 ≤ treeSurface WH w x z ∧ treeSurface WH w x z ≤ (WH : Int) - 2 := by
  have hi : i8 ((WH : Int) - 2) = (WH : Int) - 2 := by unfold i8; omega
  unfold treeSurface
  simp only [hi]
  rw [if_neg (by omega)]
  have hle := scanDown_le w x z ((WH : Int) - 2).toNat
  omega

theorem trees_calls_le (WS WH : Nat) (add_tree : World → Nat → Int → Nat → World)
    (rnd : Nat → Nat) :
    ∀ (l : List Nat) (s : TreeState),
      (l.foldl (fun s i => treeAttempt WS WH add_tree s (rnd (2 * i)) (rnd (2 * i + 1)))
        s).calls.length ≤ s.calls.length + l.length := by
  intro l
  induction l with
  | nil => intro s; simp
  | cons i t ih =>
    intro s
    rw [List.foldl_cons]
    have hstep : (treeAttempt WS WH add_tree s (rnd (2 * i)) (rnd (2 * i + 1))).calls.length
        ≤ s.calls.length + 1 := by
      unfold treeAttempt
      simp only []
      split_ifs <;> simp
    have := ih (treeAttempt WS WH add_tree s (rnd (2 * i)) (rnd (2 * i + 1)))
    rw [List.length_cons]
    omega

/-- C9: for every voxel grid and every sequence of random values the
scatterer calls `add_tree` at most 14 times.  For every attempt, with x and z
the coordinates drawn and y the height found by the downward scan: if the
voxel (y, x, z) is GRASS and the voxel (y + 1, x, z) is AIR before the attempt,
the attempt makes exactly one call, `add_tree(x, y + 1, z)`, on the grid as it
was, and then writes DIRT at (y, x, z), so that voxel is DIRT after the
attempt; otherwise the attempt changes neither the grid nor the calls.  For
2 ≤ WORLD_HEIGHT ≤ 129 the height y is in [0, WORLD_HEIGHT - 2], so y and
y + 1 are heights of the grid. -/
theorem C9_tree_planting (WS WH : Nat) (add_tree : World → Nat → Int → Nat → World)
    (rnd : Nat → Nat) (w : World) :
    (trees WS WH add_tree rnd w).calls.length ≤ 14 ∧
    ∀ (s : TreeState) (rx rz : Nat),
      (s.world (treeSurface WH s.world (treeCoord WS rx) (treeCoord WS rz)).toNat
            (treeCoord WS rx) (treeCoord WS rz) = GRASS ∧
          s.world (treeSurface WH s.world (treeCoord WS rx) (treeCoord WS rz) + 1).toNat
            (treeCoord WS rx) (treeCoord WS rz) = AIR →
        (treeAttempt WS WH add_tree s rx rz).calls =
            s.calls ++ [(treeCoord WS rx,
              treeSurface WH s.world (treeCoord WS rx) (treeCoord WS rz) + 1,
              treeCoord WS rz)] ∧
          (treeAttempt WS WH add_tree s rx rz).world =
            setBlock
              (add_tree s.world (treeCoord WS rx)
                (treeSurface WH s.world (treeCoord WS rx) (treeCoord WS rz) + 1)
                (treeCoord WS rz))
              (treeSurface WH s.world (treeCoord WS rx) (treeCoord WS rz)).toNat
              (treeCoord WS rx) (treeCoord WS rz) DIRT ∧
          (treeAttempt WS WH add_tree s rx rz).world
            (treeSurface WH s.world (treeCoord WS rx) (treeCoord WS rz)).toNat
            (treeCoord WS rx) (treeCoord WS rz) = DIRT) ∧
      (¬ (s.world (treeSurface WH s.world (treeCoord WS rx) (treeCoord WS rz)).toNat
            (treeCoord WS rx) (treeCoord WS rz) = GRASS ∧
          s.world (treeSurface WH s.world (treeCoord WS rx) (treeCoord WS rz) + 1).toNat
            (treeCoord WS rx) (treeCoord WS rz) = AIR) →
        treeAttempt WS WH add_tree s rx rz = s) ∧
      (2 ≤ WH → WH ≤ 129 →
        0 ≤ treeSurface WH s.world (treeCoord WS rx) (treeCoord WS rz) ∧
          treeSurface WH s.world (treeCoord WS rx) (treeCoord WS rz) ≤ (WH : Int) - 2) := by
  constructor
  · have h := trees_calls_le WS WH add_tree rnd (List.range tree_cnt) { world := w, calls := [] }
    unfold trees
    simpa [tree_cnt] using h
  · intro s rx rz
    refine ⟨?_, ?_, fun h2 h129 => treeSurface_range WH s.world _ _ h2 h129⟩
    · rintro ⟨hg, ha⟩
      unfold treeAttempt
      simp only []
      rw [if_neg (not_not.mpr hg), if_neg (not_not.mpr ha)]
      refine ⟨rfl, rfl, ?_⟩
      simp [setBlock]
    · intro hn
      unfold treeAttempt
      simp only []
      by_cases hg : s.world (treeSurface WH s.world (treeCoord WS rx) (treeCoord WS rz)).toNat
          (treeCoord WS rx) (treeCoord WS rz) = GRASS
      · have ha : ¬ s.world (treeSurface WH s.world (treeCoord WS rx) (treeCoord WS rz) + 1).toNat
            (treeCoord WS rx) (treeCoord WS rz) = AIR := fun ha => hn ⟨hg, ha⟩
        rw [if_neg (not_not.mpr hg), if_pos ha]
      · rw [if_pos hg]

/-- An attempt evaluated: on `meadowSample` with WORLD_SIZE = 16 and
WORLD_HEIGHT = 8, the values rx = 3 and rz = 20 give x = 5, z = 11, the
scan stops at y = 5, and the attempt calls `add_tree(5, 6, 11)` and leaves
DIRT at (5, 5, 11). -/
theorem C9_tree_planting_example :
    (treeAttempt 16 8 trunkOnly { world := meadowSample, calls := [] } 3 20).calls
        = [(5, 6, 11)] ∧
      (treeAttempt 16 8 trunkOnly { world := meadowSample, calls := [] } 3 20).world 5 5 11
        = DIRT ∧
      (trees 16 8 trunkOnly (fun i => i) meadowSample).calls.length ≤ 14 :=
  ⟨by decide, by decide, (C9_tree_planting 16 8 trunkOnly (fun i => i) meadowSample).1⟩

/-! ## Range of the tree coordinates -/

theorem treeCoordExpr_attained (WS : Nat) (c : Int)
    (hc : 2 ≤ c ∧ c ≤ (WS : Int) - 4) : treeCoordExpr WS (c - 2).toNat = c := by
  unfold treeCoordExpr
  have hcast : (((c - 2).toNat : Nat) : Int) = c - 2 := Int.toNat_of_nonneg (by omega)
  rw [hcast, Int.emod_eq_of_lt (by omega) (by omega)]
  omega

/-- C11 fails as stated: with WORLD_SIZE = 32 no value r of the random source
gives the coordinate WORLD_SIZE - 3 = 29, neither as the value of the
expression nor as the `uint8_t` stored. -/
theorem C11_counterexample :
    ¬ (∃ r : Nat, treeCoordExpr 32 r = 32 - 3) ∧ ¬ (∃ r : Nat, treeCoord 32 r = 32 - 3) := by
  constructor
  · rintro ⟨r, hr⟩
    have h := treeCoordExpr_range 32 r (by decide)
    omega
  · rintro ⟨r, hr⟩
    have h := treeCoordExpr_range 32 r (by decide)
    unfold treeCoord u8 at hr
    omega

/-- C11, amended: for every WORLD_SIZE of at least 6 the values that the
coordinate 2 + (r mod (WORLD_SIZE - 1 - 4)) takes over all values r of the
random source are exactly the interval [2, WORLD_SIZE - 4]; WORLD_SIZE - 3 is
never taken.  For WORLD_SIZE up to 255 the same holds of the `uint8_t` in which
a tree attempt stores the coordinate. -/
theorem C11_tree_coord_values (WS : Nat) (h6 : 6 ≤ WS) :
    (∀ c : Int, (∃ r : Nat, treeCoordExpr WS r = c) ↔ (2 ≤ c ∧ c ≤ (WS : Int) - 4)) ∧
      (WS ≤ 255 → ∀ c : Nat, (∃ r : Nat, treeCoord WS r = c) ↔ (2 ≤ c ∧ c ≤ WS - 4)) := by
  constructor
  · intro c
    constructor
    · rintro ⟨r, rfl⟩
      exact treeCoordExpr_range WS r h6
    · intro hc
      exact ⟨(c - 2).toNat, treeCoordExpr_attained WS c hc⟩
  · intro h255 c
    constructor
    · rintro ⟨r, rfl⟩
      have h := treeCoordExpr_range WS r h6
      unfold treeCoord u8
      omega
    · intro hc
      refine ⟨((c : Int) - 2).toNat, ?_⟩
      unfold treeCoord
      rw [treeCoordExpr_attained WS (c : Int) (by omega)]
      exact u8_of_lt c (by omega)

/-- Witness of C11 (amended): with WORLD_SIZE = 32 the value r = 26 gives the
largest coordinate, 28 = WORLD_SIZE - 4. -/
theorem C11_tree_coord_values_witness :
    treeCoord 32 26 = 28 ∧
      ((∃ r : Nat, treeCoordExpr 32 r = 28) ↔ ((2 : Int) ≤ 28 ∧ (28 : Int) ≤ (32 : Nat) - 4)) :=
  ⟨by decide, (C11_tree_coord_values 32 (by decide)).1 28⟩

/-! ## Bounds of the sampler -/

/-- C13: with GRID_SIZE = WORLD_SIZE / GRID_STEP + 2, for every coordinate x
below WORLD_SIZE (the same code serves x and z) the cell index is at most
GRID_SIZE - 2, the clamp of lines 55-56 leaves it unchanged, and both the
index gx0 and its neighbour gx1 used to read the four corners are below
GRID_SIZE; for a `uint8_t` coordinate the index is x / GRID_STEP and the
neighbour is gx0 + 1. -/
theorem C13_grid_reads_in_bounds (WS x : Nat) (hx : x < WS) :
    gridIndex x ≤ GRID_SIZE WS - 2 ∧
      clampIndex WS (gridIndex x) = gridIndex x ∧
      clampIndex WS (gridIndex x) < GRID_SIZE WS ∧
      u8 ((clampIndex WS (gridIndex x) : Int) + 1) < GRID_SIZE WS ∧
      (x ≤ 255 → gridIndex x = x / GRID_STEP ∧
        u8 ((clampIndex WS (gridIndex x) : Int) + 1) = gridIndex x + 1 ∧
        gridIndex x + 1 < GRID_SIZE WS) := by
  have hb := clampIndex_gridIndex WS x hx
  have hc : clampIndex WS (gridIndex x) = gridIndex x := by
    unfold clampIndex gridIndex GRID_SIZE u8 GRID_STEP
    split <;> omega
  refine ⟨?_, hc, hb.1, hb.2, ?_⟩
  · unfold gridIndex GRID_SIZE u8 GRID_STEP
    omega
  · intro h255
    rw [hc]
    unfold gridIndex GRID_SIZE u8 GRID_STEP
    omega

/-- Witness of C13: WORLD_SIZE = 48 and x = 47, the last column, whose cell
index is 7 with neighbour 8 in a coarse grid of size 10. -/
theorem C13_grid_reads_in_bounds_witness :
    gridIndex 47 = 7 ∧ GRID_SIZE 48 = 10 ∧ clampIndex 48 (gridIndex 47) = gridIndex 47 :=
  ⟨by decide, by decide, (C13_grid_reads_in_bounds 48 47 (by decide)).2.1⟩

/-- C14: for corner samples in the `uint8_t` range and offsets below
GRID_STEP, the weighted sum of lines 69-72 is the exact sum of the four
weighted corners, it is non-negative and below 2^16, so the `uint16_t`
accumulator holds it unchanged, and the stored height is the exact sum divided
by GRID_STEP * GRID_STEP with truncation. -/
theorem C14_accumulator_exact (h00 h10 h01 h11 lx lz : Nat)
    (h1 : h00 ≤ 255) (h2 : h10 ≤ 255) (h3 : h01 ≤ 255) (h4 : h11 ≤ 255)
    (hlx : lx < GRID_STEP) (hlz : lz < GRID_STEP) :
    weightedSum h00 h10 h01 h11 lx lz = (exactSum h00 h10 h01 h11 lx lz : Int) ∧
      exactSum h00 h10 h01 h11 lx lz < 2 ^ 16 ∧
      (u16 (weightedSum h00 h10 h01 h11 lx lz) : Int) = weightedSum h00 h10 h01 h11 lx lz ∧
      interpolate h00 h10 h01 h11 lx lz =
        exactSum h00 h10 h01 h11 lx lz / (GRID_STEP * GRID_STEP) := by
  have hb := exactSum_bounds 0 255 h00 h10 h01 h11 lx lz hlx hlz
    ⟨Nat.zero_le _, h1⟩ ⟨Nat.zero_le _, h2⟩ ⟨Nat.zero_le _, h3⟩ ⟨Nat.zero_le _, h4⟩
  have hw := weightedSum_eq h00 h10 h01 h11 lx lz h1 h2 h3 h4 hlx hlz
  refine ⟨hw, by omega, ?_, ?_⟩
  · rw [hw, u16_of_lt _ (by omega)]
  · rw [interpolate_eq h00 h10 h01 h11 lx lz h1 h2 h3 h4 hlx hlz]
    rfl

/-- Witness of C14: the largest case, all four corners 255 at offsets (5, 5),
where the sum is 255 * 36 = 9180. -/
theorem C14_accumulator_exact_witness :
    weightedSum 255 255 255 255 5 5 = 9180 ∧ interpolate 255 255 255 255 5 5 = 255 ∧
      exactSum 255 255 255 255 5 5 < 2 ^ 16 :=
  ⟨by decide, by decide,
    (C14_accumulator_exact 255 255 255 255 5 5 (by decide) (by decide) (by decide) (by decide)
      (by decide) (by decide)).2.1⟩

/-- C20: for corner samples in the `uint8_t` range and offsets below
GRID_STEP, the four weights of the sampler, `inv_x * inv_z`, `lerp_x * inv_z`,
`inv_x * lerp_z` and `lerp_x * lerp_z`, sum to `denom` = GRID_STEP²
(they are unsigned, hence not negative), and the raw height lies between the
least and the greatest of the four corners. -/
theorem C20_truncated_convex_combination (h00 h10 h01 h11 lx lz : Nat)
    (h1 : h00 ≤ 255) (h2 : h10 ≤ 255) (h3 : h01 ≤ 255) (h4 : h11 ≤ 255)
    (hlx : lx < GRID_STEP) (hlz : lz < GRID_STEP) :
    u8 ((GRID_STEP : Int) - lx) * u8 ((GRID_STEP : Int) - lz) +
        lx * u8 ((GRID_STEP : Int) - lz) + u8 ((GRID_STEP : Int) - lx) * lz + lx * lz
        = denom ∧
      min (min h00 h10) (min h01 h11) ≤ interpolate h00 h10 h01 h11 lx lz ∧
      interpolate h00 h10 h01 h11 lx lz ≤ max (max h00 h10) (max h01 h11) := by
  constructor
  · rw [u8_inv lx hlx, u8_inv lz hlz, denom_eq]
    unfold GRID_STEP at *
    interval_cases lx <;> interval_cases lz <;> rfl
  · exact interpolate_between (min (min h00 h10) (min h01 h11))
      (max (max h00 h10) (max h01 h11)) h00 h10 h01 h11 lx lz (by omega) hlx hlz
      (by omega) (by omega) (by omega) (by omega)

/-- Witness of C20: corners 3, 14, 7, 9 at offsets (2, 4) give the sum 264
and the raw height 7, between 3 and 14. -/
theorem C20_truncated_convex_combination_witness :
    interpolate 3 14 7 9 2 4 = 7 ∧
      min (min 3 14) (min 7 9) ≤ interpolate 3 14 7 9 2 4 :=
  ⟨by decide,
    (C20_truncated_convex_combination 3 14 7 9 2 4 (by decide) (by decide) (by decide)
      (by decide) (by decide) (by decide)).2.1⟩

/-! ## Layering of a tall column -/

theorem layerFills_tall (WH x z h : Nat) (h3 : 3 < h) (hh : h ≤ 255) (hWH : 1 ≤ WH) :
    layerFills WH x z h =
      ⟨x, 1, z, x, h - 3, z, STONE⟩ ::
        ⟨x, if (h - 3) + 1 ≤ min h (WH - 1) then (h - 3) + 1 else min h (WH - 1), z,
          x, min h (WH - 1), z, DIRT⟩ ::
        (if h ≥ WATER_LEVEL ∧ (h : Int) < (WH : Int) then [⟨x, h, z, x, h, z, GRASS⟩]
         else []) := by
  have hle : min h (WH - 1) ≤ 255 := by omega
  unfold layerFills
  simp only [stone_top_eq h h3 hh, dirt_top_eq WH h hh hWH,
    dirt_bottom_eq (h - 3) (min h (WH - 1)) hle, if_pos h3]
  have hb : (if (h - 3) + 1 ≤ min h (WH - 1) then (h - 3) + 1 else min h (WH - 1))
      ≤ min h (WH - 1) := by split <;> omega
  rw [if_pos hb]
  rfl

theorem biasHeight_range (r : Nat) (h3 : 3 ≤ r) (h14 : r ≤ 14) :
    4 ≤ biasHeight r ∧ biasHeight r ≤ 14 := by
  unfold biasHeight WATER_LEVEL u16
  split <;> omega

theorem layerColumn_stone_base (WH : Nat) (w : World) (x z h : Nat)
    (h4 : 4 ≤ h) (hh : h ≤ 255) (hWH : 3 ≤ WH) :
    layerColumn WH w x z h 1 x z = STONE := by
  unfold layerColumn
  rw [layerFills_tall WH x z h (by omega) hh (by omega)]
  by_cases hg : h ≥ WATER_LEVEL ∧ (h : Int) < (WH : Int)
  · have h5 := hg.1
    unfold WATER_LEVEL at h5
    rw [if_pos hg]
    simp only [List.foldl_cons, List.foldl_nil, Fill.run, fill_space]
    rw [if_neg (by omega), if_neg (by split <;> omega), if_pos (by omega)]
  · rw [if_neg hg]
    simp only [List.foldl_cons, List.foldl_nil, Fill.run, fill_space]
    rw [if_neg (by split <;> omega), if_pos (by omega)]

/-- C19: for every coarse grid whose samples all lie in [3, 14] and every
column (x, z) of the world, the height after the terrain bias lies in [4, 14].
So the test `height > 3` of column layering holds for every column (the
dirt-only branch is not taken), the first fill of the column is the STONE fill
from height 1 to height - 3 ≥ 1, which covers height 1, and for
WORLD_HEIGHT ≥ 3 the voxel at height 1 of the column is STONE after the
column is layered, on every grid. -/
theorem C19_terrain_at_least_four (WS WH : Nat) (grid : Nat → Nat → Nat) (x z : Nat)
    (hx : x < WS) (hz : z < WS)
    (hg : ∀ gx gz, gx < GRID_SIZE WS → gz < GRID_SIZE WS →
      3 ≤ grid gx gz ∧ grid gx gz ≤ 14) :
    4 ≤ columnHeight WS grid x z ∧ columnHeight WS grid x z ≤ 14 ∧
      columnHeight WS grid x z > 3 ∧
      (layerFills WH x z (columnHeight WS grid x z)).head? =
        some ⟨x, 1, z, x, columnHeight WS grid x z - 3, z, STONE⟩ ∧
      (⟨x, 1, z, x, columnHeight WS grid x z - 3, z, STONE⟩ : Fill).covers 1 x z ∧
      (3 ≤ WH → ∀ w : World,
        layerColumn WH w x z (columnHeight WS grid x z) 1 x z = STONE) := by
  have hr := rawHeight_between WS grid 3 14 x z (by omega) hx hz hg
  have hb := biasHeight_range (rawHeight WS grid x z) hr.1 hr.2
  have hc : columnHeight WS grid x z = biasHeight (rawHeight WS grid x z) := rfl
  rw [← hc] at hb
  refine ⟨hb.1, hb.2, by omega, ?_, ?_, ?_⟩
  · have h3 : columnHeight WS grid x z > 3 := by omega
    unfold layerFills
    simp only [if_pos h3, stone_top_eq _ h3 (by omega), List.cons_append, List.head?_cons]
  · unfold Fill.covers
    simp only []
    omega
  · intro hWH w
    exact layerColumn_stone_base WH w x z _ hb.1 (by omega) hWH

/-- Witness of C19: a 12 x 12 world whose lattice samples are all 3, the
lowest; column (4, 9) gets the height 4 after the bias. -/
theorem C19_terrain_at_least_four_witness :
    columnHeight 12 (fun _ _ => 3) 4 9 = 4 ∧ 4 ≤ columnHeight 12 (fun _ _ => 3) 4 9 :=
  ⟨by decide,
    (C19_terrain_at_least_four 12 16 (fun _ _ => 3) 4 9 (by decide) (by decide)
      (fun _ _ _ _ => by simp)).1⟩

/-! ## Base layers and the material stack -/

theorem baseLayers_apply (WS : Nat) (w : World) (y x z : Nat) :
    baseLayers WS w y x z =
      if x ≤ WS - 1 ∧ 1 ≤ y ∧ y ≤ WATER_LEVEL ∧ z ≤ WS - 1 then WATER
      else if x ≤ WS - 1 ∧ y ≤ 0 ∧ z ≤ WS - 1 then BEDROCK
      else w y x z := by
  unfold baseLayers fill_space
  simp only [Nat.zero_le, true_and]

/-- C15: with `fill_space` an inclusive box write, for every initial grid
(WORLD_HEIGHT above WATER_LEVEL) the two base fills leave BEDROCK at every
voxel of height 0 and WATER at every voxel of a height in 1 .. WATER_LEVEL,
for all x and z in 0 .. WORLD_SIZE - 1; every voxel above WATER_LEVEL keeps its
value, and every voxel whose value changes lies below WORLD_HEIGHT. -/
theorem C15_base_layers (WS WH : Nat) (w : World) (hWH : WATER_LEVEL < WH) :
    (∀ x z, x < WS → z < WS → baseLayers WS w 0 x z = BEDROCK) ∧
      (∀ y x z, 1 ≤ y → y ≤ WATER_LEVEL → x < WS → z < WS →
        baseLayers WS w y x z = WATER) ∧
      (∀ y x z, WATER_LEVEL < y → baseLayers WS w y x z = w y x z) ∧
      (∀ y x z, baseLayers WS w y x z ≠ w y x z → y < WH) := by
  refine ⟨?_, ?_, ?_, ?_⟩
  · intro x z hx hz
    rw [baseLayers_apply, if_neg (by omega), if_pos (by omega)]
  · intro y x z h1 h5 hx hz
    rw [baseLayers_apply, if_pos (by omega)]
  · intro y x z hy
    rw [baseLayers_apply, if_neg (by omega), if_neg (by omega)]
  · intro y x z hne
    by_contra hge
    apply hne
    rw [baseLayers_apply, if_neg (by omega), if_neg (by omega)]

/-- Witness of C15: a 4 x 4 world of height 8 that starts as AIR. -/
theorem C15_base_layers_witness :
    baseLayers 4 (fun _ _ _ => AIR) 0 3 3 = BEDROCK ∧
      baseLayers 4 (fun _ _ _ => AIR) 5 0 2 = WATER ∧
      baseLayers 4 (fun _ _ _ => AIR) 6 1 1 = AIR :=
  ⟨(C15_base_layers 4 8 (fun _ _ _ => AIR) (by decide)).1 3 3 (by decide) (by decide),
    by decide, by decide⟩

theorem layerColumn_tall_apply (WH : Nat) (w : World) (x z h y : Nat)
    (h4 : 4 ≤ h) (hh : h ≤ 255) (hWH : h ≤ WH - 1) :
    layerColumn WH w x z h y x z =
      if y = h ∧ WATER_LEVEL ≤ h then GRASS
      else if h - 2 ≤ y ∧ y ≤ h then DIRT
      else if 1 ≤ y ∧ y ≤ h - 3 then STONE
      else w y x z := by
  have hmin : min h (WH - 1) = h := by omega
  unfold layerColumn
  rw [layerFills_tall WH x z h (by omega) hh (by omega), hmin,
    if_pos (show h - 3 + 1 ≤ h by omega)]
  by_cases hg : h ≥ WATER_LEVEL ∧ (h : Int) < (WH : Int)
  · rw [if_pos hg]
    obtain ⟨h5, -⟩ := hg
    simp only [List.foldl_cons, List.foldl_nil, Fill.run, fill_space, le_refl, true_and,
      and_true]
    unfold WATER_LEVEL at *
    split_ifs <;> first | rfl | (exfalso; omega)
  · rw [if_neg hg]
    have hlow : ¬ WATER_LEVEL ≤ h := by
      intro h5
      apply hg
      exact ⟨h5, by omega⟩
    simp only [List.foldl_cons, List.foldl_nil, Fill.run, fill_space, le_refl, true_and,
      and_true]
    unfold WATER_LEVEL at *
    split_ifs <;> first | rfl | (exfalso; omega)

/-- C16: starting from an all-AIR grid, after the base layers and the
layering of a column (x, z) of the world whose height h satisfies
4 ≤ h ≤ WORLD_HEIGHT - 1 (h in the `uint8_t` range, as every height the
sampler returns is), the column reads from the bottom: BEDROCK at height 0,
STONE at the heights 1 .. h - 3, DIRT at the heights h - 2 .. h - 1, at height
h GRASS if h ≥ WATER_LEVEL and DIRT otherwise, WATER at every height y with
h < y ≤ WATER_LEVEL, and AIR at every height above max(h, WATER_LEVEL). -/
theorem C16_material_stack (WS WH x z h : Nat) (hx : x < WS) (hz : z < WS)
    (h4 : 4 ≤ h) (hWH : h ≤ WH - 1) (hh : h ≤ 255) :
    layerColumn WH (baseLayers WS (fun _ _ _ => AIR)) x z h 0 x z = BEDROCK ∧
      (∀ y, 1 ≤ y → y ≤ h - 3 →
        layerColumn WH (baseLayers WS (fun _ _ _ => AIR)) x z h y x z = STONE) ∧
      (∀ y, h - 2 ≤ y → y ≤ h - 1 →
        layerColumn WH (baseLayers WS (fun _ _ _ => AIR)) x z h y x z = DIRT) ∧
      layerColumn WH (baseLayers WS (fun _ _ _ => AIR)) x z h h x z =
        (if h ≥ WATER_LEVEL then GRASS else DIRT) ∧
      (∀ y, h < y → y ≤ WATER_LEVEL →
        layerColumn WH (baseLayers WS (fun _ _ _ => AIR)) x z h y x z = WATER) ∧
      (∀ y, max h WATER_LEVEL < y →
        layerColumn WH (baseLayers WS (fun _ _ _ => AIR)) x z h y x z = AIR) := by
  refine ⟨?_, ?_, ?_, ?_, ?_, ?_⟩
  · rw [layerColumn_tall_apply WH _ x z h 0 h4 hh hWH, if_neg (by omega), if_neg (by omega),
      if_neg (by omega), baseLayers_apply, if_neg (by omega), if_pos (by omega)]
  · intro y h1 h2
    rw [layerColumn_tall_apply WH _ x z h y h4 hh hWH, if_neg (by omega), if_neg (by omega),
      if_pos (by omega)]
  · intro y h1 h2
    rw [layerColumn_tall_apply WH _ x z h y h4 hh hWH, if_neg (by omega), if_pos (by omega)]
  · rw [layerColumn_tall_apply WH _ x z h h h4 hh hWH]
    by_cases h5 : h ≥ WATER_LEVEL
    · rw [if_pos ⟨rfl, h5⟩, if_pos h5]
    · rw [if_neg (fun hc => h5 hc.2), if_pos (by omega), if_neg h5]
  · intro y h1 h2
    unfold WATER_LEVEL at h2
    rw [layerColumn_tall_apply WH _ x z h y h4 hh hWH, if_neg (by omega), if_neg (by omega),
      if_neg (by omega), baseLayers_apply, if_pos ⟨by omega, by omega, h2, by omega⟩]
  · intro y h1
    have h5 : WATER_LEVEL < y := by omega
    rw [layerColumn_tall_apply WH _ x z h y h4 hh hWH, if_neg (by omega), if_neg (by omega),
      if_neg (by omega), baseLayers_apply, if_neg (by omega), if_neg (by omega)]

/-- Witness of C16: column (2, 3) of an 8 x 8 world of height 16 with h = 9;
the top of the column is GRASS and the voxel below it DIRT. -/
theorem C16_material_stack_witness :
    layerColumn 16 (baseLayers 8 (fun _ _ _ => AIR)) 2 3 9 9 2 3 =
        (if 9 ≥ WATER_LEVEL then GRASS else DIRT) ∧
      layerColumn 16 (baseLayers 8 (fun _ _ _ => AIR)) 2 3 9 8 2 3 = DIRT :=
  ⟨(C16_material_stack 8 16 2 3 9 (by decide) (by decide) (by decide) (by decide)
      (by decide)).2.2.2.1, by decide⟩

/-! ## The downward scan of a tree attempt -/

theorem scanDown_spec (w : World) (x z : Nat) :
    ∀ n, scanDown w x z n ≤ n ∧ (1 ≤ n → 1 ≤ scanDown w x z n) ∧
      (∀ y, scanDown w x z n < y → y ≤ n → w y x z = AIR) ∧
      (2 ≤ scanDown w x z n → w (scanDown w x z n) x z ≠ AIR) := by
  intro n
  induction n with
  | zero =>
    unfold scanDown
    exact ⟨le_refl _, fun h => by omega, fun y h1 h2 => by omega, fun h => by omega⟩
  | succ k ih =>
    unfold scanDown
    by_cases hc : k + 1 > 1 ∧ w (k + 1) x z = AIR
    · rw [if_pos hc]
      obtain ⟨i1, i2, i3, i4⟩ := ih
      refine ⟨by omega, fun _ => i2 (by omega), ?_, i4⟩
      intro y hy1 hy2
      rcases Nat.lt_or_ge k y with hky | hky
      · have hyk : y = k + 1 := by omega
        rw [hyk]; exact hc.2
      · exact i3 y hy1 hky
    · rw [if_neg hc]
      refine ⟨le_refl _, fun _ => by omega, fun y hy1 hy2 => by omega, ?_⟩
      intro h2 ha
      exact hc ⟨by omega, ha⟩

/-- C18 fails as stated: with WORLD_HEIGHT = 200 the `int8_t` start value
WORLD_HEIGHT - 2 = 198 wraps to -58, the loop does not run, and the scan ends
with y = -58, outside [1, WORLD_HEIGHT - 2]. -/
theorem C18_counterexample :
    treeSurface 200 (fun _ _ _ => STONE) 5 5 = -58 ∧
      ¬ ((1 : Int) ≤ treeSurface 200 (fun _ _ _ => STONE) 5 5 ∧
          treeSurface 200 (fun _ _ _ => STONE) 5 5 ≤ 200 - 2) := by
  decide

/-- C18, amended: for every voxel grid, every WORLD_HEIGHT with
3 ≤ WORLD_HEIGHT ≤ 129 (so that WORLD_HEIGHT - 2 fits the `int8_t` counter) and
every column (x, z), the downward scan that starts at height WORLD_HEIGHT - 2
ends with a height y in [1, WORLD_HEIGHT - 2]: every voxel of the column above
y up to WORLD_HEIGHT - 2 is AIR, and if y ≥ 2 the voxel at y is not AIR, so y is
the greatest height in [2, WORLD_HEIGHT - 2] at which the column is not AIR, or
y = 1 when all those voxels are AIR; the heights y and y + 1 read afterwards
are below WORLD_HEIGHT. -/
theorem C18_tree_surface_scan (WH : Nat) (w : World) (x z : Nat)
    (h3 : 3 ≤ WH) (h129 : WH ≤ 129) :
    ∃ y : Nat, treeSurface WH w x z = (y : Int) ∧ 1 ≤ y ∧ y ≤ WH - 2 ∧ y + 1 < WH ∧
      (∀ y', y < y' → y' ≤ WH - 2 → w y' x z = AIR) ∧
      (2 ≤ y → w y x z ≠ AIR) ∧
      (y = 1 ↔ ∀ y', 2 ≤ y' → y' ≤ WH - 2 → w y' x z = AIR) := by
  have hi : i8 ((WH : Int) - 2) = (WH : Int) - 2 := by unfold i8; omega
  have hn : ((WH : Int) - 2).toNat = WH - 2 := by omega
  obtain ⟨s1, s2, s3, s4⟩ := scanDown_spec w x z (WH - 2)
  refine ⟨scanDown w x z (WH - 2), ?_, s2 (by omega), s1, by omega, s3, s4, ?_⟩
  · unfold treeSurface
    simp only [hi]
    rw [if_neg (by omega), hn]
  · constructor
    · intro h1 y' hy1 hy2
      exact s3 y' (by omega) hy2
    · intro hall
      by_contra hne
      have h2 : 2 ≤ scanDown w x z (WH - 2) := by
        have := s2 (by omega)
        omega
      exact s4 h2 (hall _ h2 s1)

/-- Witness of C18 (amended): on `meadowSample` with WORLD_HEIGHT = 8 the scan
of column (1, 1) starts at height 6 and ends at the GRASS voxel at height 5. -/
theorem C18_tree_surface_scan_witness :
    treeSurface 8 meadowSample 1 1 = 5 ∧
      ∃ y : Nat, treeSurface 8 meadowSample 1 1 = (y : Int) ∧ 1 ≤ y ∧ y ≤ 8 - 2 ∧ y + 1 < 8 ∧
        (∀ y', y < y' → y' ≤ 8 - 2 → meadowSample y' 1 1 = AIR) ∧
        (2 ≤ y → meadowSample y 1 1 ≠ AIR) ∧
        (y = 1 ↔ ∀ y', 2 ≤ y' → y' ≤ 8 - 2 → meadowSample y' 1 1 = AIR) :=
  ⟨by decide, C18_tree_surface_scan 8 meadowSample 1 1 (by decide) (by decide)⟩

/-! ## Ore seeding -/

theorem foldl_product {σ α β : Type} (g : σ → α × β → σ) (l₂ : List β) :
    ∀ (l₁ : List α) (s : σ),
      (List.product l₁ l₂).foldl g s =
        l₁.foldl (fun s a => l₂.foldl (fun s b => g s (a, b)) s) s := by
  intro l₁
  induction l₁ with
  | nil => intro s; rfl
  | cons a t ih =>
    intro s
    have e : (a :: t).product l₂ = List.map (fun b => (a, b)) l₂ ++ t.product l₂ :=
      List.product_cons a t l₂
    rw [e, List.foldl_append, List.foldl_map, List.foldl_cons, ih]

theorem ores_eq_foldl (WS WH : Nat) (draw : Nat → Nat) (w : World) :
    ores WS WH draw w =
      (oreCells WS WH).foldl (fun s c => oreCell draw s c.1 c.2.1 c.2.2)
        { world := w, used := 0 } := by
  unfold ores oreCells
  rw [foldl_product]
  simp only [foldl_product]

theorem oreCell_used (draw : Nat → Nat) (s : OreState) (y x z : Nat) :
    (oreCell draw s y x z).used = s.used + (if s.world y x z = STONE then 1 else 0) := by
  unfold oreCell
  simp only []
  split_ifs <;> simp_all

theorem oreCell_world (draw : Nat → Nat) (s : OreState) (c d : Nat × Nat × Nat) :
    voxel (oreCell draw s c.1 c.2.1 c.2.2).world d =
      if d = c ∧ voxel s.world c = STONE then oreMaterial (u8 (draw s.used))
      else voxel s.world d := by
  obtain ⟨y, x, z⟩ := c
  obtain ⟨y', x', z'⟩ := d
  unfold oreCell voxel oreMaterial setBlock
  simp only [Prod.mk.injEq]
  by_cases hs : s.world y x z = STONE
  · by_cases hc : y' = y ∧ x' = x ∧ z' = z
    · obtain ⟨rfl, rfl, rfl⟩ := hc
      by_cases h0 : u8 (draw s.used) = 0
      · simp [hs, h0]
      · by_cases h1 : u8 (draw s.used) = 1
        · simp [hs, h1]
        · simp [hs, h0, h1]
    · by_cases h0 : u8 (draw s.used) = 0
      · simp [hs, h0, hc]
      · by_cases h1 : u8 (draw s.used) = 1
        · simp [hs, h1, hc]
        · simp [hs, h0, h1, hc]
  · simp [hs]

theorem stoneBefore_congr (w w' : World) (c : Nat × Nat × Nat) :
    ∀ (l : List (Nat × Nat × Nat)), (∀ a, a ∈ l → voxel w a = voxel w' a) →
      stoneBefore w l c = stoneBefore w' l c := by
  intro l
  induction l with
  | nil => intro _; rfl
  | cons a t ih =>
    intro h
    unfold stoneBefore
    rw [h a (List.mem_cons_self _ _), ih (fun b hb => h b (List.mem_cons_of_mem _ hb))]

theorem oreFold_spec (draw : Nat → Nat) :
    ∀ (l : List (Nat × Nat × Nat)), l.Nodup → ∀ (s : OreState),
      (l.foldl (fun s c => oreCell draw s c.1 c.2.1 c.2.2) s).used =
          s.used + (l.filter (fun c => decide (voxel s.world c = STONE))).length ∧
        ∀ d, voxel (l.foldl (fun s c => oreCell draw s c.1 c.2.1 c.2.2) s).world d =
          if d ∈ l ∧ voxel s.world d = STONE then
            oreMaterial (u8 (draw (s.used + stoneBefore s.world l d)))
          else voxel s.world d := by
  intro l
  induction l with
  | nil =>
    intro _ s
    refine ⟨by simp, fun d => ?_⟩
    rw [List.foldl_nil, if_neg (fun h => List.not_mem_nil d h.1)]
  | cons a t ih =>
    intro hnd s
    have hat : a ∉ t := (List.nodup_cons.mp hnd).1
    have htn : t.Nodup := (List.nodup_cons.mp hnd).2
    rw [List.foldl_cons]
    obtain ⟨iu, iw⟩ := ih htn (oreCell draw s a.1 a.2.1 a.2.2)
    have hw := oreCell_world draw s a
    have hu : (oreCell draw s a.1 a.2.1 a.2.2).used =
        s.used + (if voxel s.world a = STONE then 1 else 0) := oreCell_used draw s a.1 a.2.1 a.2.2
    have hsame : ∀ b, b ∈ t → voxel (oreCell draw s a.1 a.2.1 a.2.2).world b = voxel s.world b := by
      intro b hb
      rw [hw b, if_neg]
      intro h
      exact hat (h.1 ▸ hb)
    constructor
    · have hf : t.filter (fun c => decide (voxel (oreCell draw s a.1 a.2.1 a.2.2).world c = STONE))
          = t.filter (fun c => decide (voxel s.world c = STONE)) :=
        List.filter_congr (fun b hb => by rw [hsame b hb])
      rw [iu, hu, hf, List.filter_cons]
      by_cases hs : voxel s.world a = STONE
      · simp only [hs, decide_True, if_true, List.length_cons]
        omega
      · simp only [hs, decide_False, if_false]
        rfl
    · intro d
      by_cases hda : d = a
      · rw [iw d, hda, if_neg (fun h => hat h.1), hw a]
        by_cases hs : voxel s.world a = STONE
        · rw [if_pos ⟨rfl, hs⟩, if_pos ⟨List.mem_cons_self _ _, hs⟩]
          have e : stoneBefore s.world (a :: t) a = 0 := by
            conv_lhs => unfold stoneBefore
            rw [if_pos rfl]
          rw [e, Nat.add_zero]
        · rw [if_neg (fun h => hs h.2), if_neg (fun h => hs h.2)]
      · have hne : ¬ a = d := fun h => hda h.symm
        have hsd : voxel (oreCell draw s a.1 a.2.1 a.2.2).world d = voxel s.world d := by
          rw [hw d, if_neg (fun h => hda h.1)]
        rw [iw d, hsd]
        by_cases hd : d ∈ t ∧ voxel s.world d = STONE
        · rw [if_pos hd, if_pos ⟨List.mem_cons_of_mem _ hd.1, hd.2⟩, hu,
            stoneBefore_congr _ s.world d t hsame]
          have e : stoneBefore s.world (a :: t) d =
              (if voxel s.world a = STONE then 1 else 0) + stoneBefore s.world t d := by
            conv_lhs => unfold stoneBefore
            rw [if_neg hne]
          rw [e, Nat.add_assoc]
        · rw [if_neg hd, if_neg]
          intro h
          apply hd
          refine ⟨?_, h.2⟩
          rcases List.mem_cons.mp h.1 with h1 | h1
          · exact absurd h1 hda
          · exact h1

theorem oreCells_nodup (WS WH : Nat) : (oreCells WS WH).Nodup := by
  unfold oreCells
  exact List.Nodup.product (List.nodup_range' 1 (WH - 1))
    (List.Nodup.product (List.nodup_range WS) (List.nodup_range WS))

theorem mem_oreCells (WS WH y x z : Nat) :
    (y, x, z) ∈ oreCells WS WH ↔ 1 ≤ y ∧ y < WH ∧ x < WS ∧ z < WS := by
  unfold oreCells
  have h1 : (y, x, z) ∈ List.product (List.range' 1 (WH - 1))
        (List.product (List.range WS) (List.range WS)) ↔
      y ∈ List.range' 1 (WH - 1) ∧ (x, z) ∈ List.product (List.range WS) (List.range WS) :=
    List.mem_product
  have h2 : (x, z) ∈ List.product (List.range WS) (List.range WS) ↔
      x ∈ List.range WS ∧ z ∈ List.range WS := List.mem_product
  rw [h1, h2, List.mem_range'_1, List.mem_range, List.mem_range]
  omega

/-- C12: for every voxel grid and every sequence of draws in [0, 19], the
number of draws the seeder consumes is the number of voxels that are STONE at
a height in 1 .. WORLD_HEIGHT - 1 (x, z inside the world); such a voxel gets the
draw whose index is the number of STONE voxels visited before it, in the order
height, then x, then z, and becomes COAL_ORE for the draw 0, IRON_ORE for the
draw 1 and stays STONE for every other draw; every voxel that was not STONE,
and every voxel outside those heights, height 0 included, is unchanged. -/
theorem C12_ore_seeder (WS WH : Nat) (draw : Nat → Nat) (w : World)
    (hd : ∀ k, draw k ≤ 19) :
    (ores WS WH draw w).used =
        ((oreCells WS WH).filter (fun c => decide (voxel w c = STONE))).length ∧
      (∀ y x z, 1 ≤ y → y < WH → x < WS → z < WS → w y x z = STONE →
        (ores WS WH draw w).world y x z =
          (if draw (stoneBefore w (oreCells WS WH) (y, x, z)) = 0 then COAL_ORE
           else if draw (stoneBefore w (oreCells WS WH) (y, x, z)) = 1 then IRON_ORE
           else STONE)) ∧
      (∀ y x z, w y x z ≠ STONE → (ores WS WH draw w).world y x z = w y x z) ∧
      (∀ y x z, ¬ (1 ≤ y ∧ y < WH ∧ x < WS ∧ z < WS) →
        (ores WS WH draw w).world y x z = w y x z) ∧
      (∀ x z, (ores WS WH draw w).world 0 x z = w 0 x z) := by
  obtain ⟨hu, hw⟩ := oreFold_spec draw (oreCells WS WH) (oreCells_nodup WS WH)
    { world := w, used := 0 }
  rw [← ores_eq_foldl] at hu hw
  have hout : ∀ y x z, ¬ (1 ≤ y ∧ y < WH ∧ x < WS ∧ z < WS) →
      (ores WS WH draw w).world y x z = w y x z := by
    intro y x z hn
    have h := hw (y, x, z)
    rw [if_neg (fun h => hn ((mem_oreCells WS WH y x z).mp h.1))] at h
    exact h
  refine ⟨?_, ?_, ?_, hout, fun x z => hout 0 x z (by omega)⟩
  · simpa using hu
  · intro y x z h1 h2 h3 h4 hs
    have h := hw (y, x, z)
    rw [if_pos ⟨(mem_oreCells WS WH y x z).mpr ⟨h1, h2, h3, h4⟩, hs⟩] at h
    have hk : u8 (draw (0 + stoneBefore w (oreCells WS WH) (y, x, z)))
        = draw (stoneBefore w (oreCells WS WH) (y, x, z)) := by
      rw [Nat.zero_add]
      exact u8_of_lt _ (by have := hd (stoneBefore w (oreCells WS WH) (y, x, z)); omega)
    simp only [hk] at h
    exact h
  · intro y x z hs
    have h := hw (y, x, z)
    rw [if_neg (fun h => hs h.2)] at h
    exact h

/-- Witness of C12: a 2 x 2 world of height 4 on `quarrySample` with the draws
0, 1, 2, 3, ...; the eight STONE voxels at heights 1 and 2 take one draw each,
the first becomes COAL_ORE and the second IRON_ORE. -/
theorem C12_ore_seeder_witness :
    (ores 2 4 (fun k => k % 20) quarrySample).used = 8 ∧
      (ores 2 4 (fun k => k % 20) quarrySample).world 1 0 0 = COAL_ORE ∧
      (ores 2 4 (fun k => k % 20) quarrySample).world 1 0 1 = IRON_ORE ∧
      (ores 2 4 (fun k => k % 20) quarrySample).world 1 1 0 = STONE ∧
      (ores 2 4 (fun k => k % 20) quarrySample).world 0 1 1 = quarrySample 0 1 1 :=
  ⟨by decide, by decide, by decide, by decide,
    (C12_ore_seeder 2 4 (fun k => k % 20) quarrySample
      (fun k => by show k % 20 ≤ 19; omega)).2.2.2.2 1 1⟩

/-! ## The shoreline pass as a simultaneous rewrite -/

theorem nearWater_complete (WS : Nat) (w : World) (y x z : Nat) (hWS : WS ≤ 127)
    (hx : x < WS) (hz : z < WS) (x' z' : Nat) (hx' : x' < WS) (hz' : z' < WS)
    (b1 : x' ≤ x + 2) (b2 : x ≤ x' + 2) (b3 : z' ≤ z + 2) (b4 : z ≤ z' + 2)
    (hw : w y x' z' = WATER) : nearWater WS w y x z = true := by
  have ex : i8 (i8 (x : Int) + ((x' : Int) - (x : Int))) = (x' : Int) := by unfold i8; omega
  have ez : i8 (i8 (z : Int) + ((z' : Int) - (z : Int))) = (z' : Int) := by unfold i8; omega
  unfold nearWater
  rw [List.any_eq_true]
  refine ⟨(x' : Int) - (x : Int), ?_, ?_⟩
  · unfold offsets
    simp only [List.mem_cons, List.mem_singleton, List.not_mem_nil, or_false]
    omega
  · simp only [ex]
    rw [if_neg (by omega), List.any_eq_true]
    refine ⟨(z' : Int) - (z : Int), ?_, ?_⟩
    · unfold offsets
      simp only [List.mem_cons, List.mem_singleton, List.not_mem_nil, or_false]
      omega
    · simp only [ez]
      rw [if_neg (by omega)]
      simp only [Int.toNat_ofNat]
      exact decide_eq_true hw

theorem nearWater_iff (WS : Nat) (w : World) (y x z : Nat) (hWS : WS ≤ 127)
    (hx : x < WS) (hz : z < WS) :
    nearWater WS w y x z = true ↔
      ∃ x', x' < WS ∧ ∃ z', z' < WS ∧
        (x' ≤ x + 2 ∧ x ≤ x' + 2 ∧ z' ≤ z + 2 ∧ z ≤ z' + 2 ∧ w y x' z' = WATER) := by
  constructor
  · intro h
    obtain ⟨x', z', c1, c2, c3, c4, c5, c6, c7⟩ := nearWater_sound WS w y x z hWS hx hz h
    exact ⟨x', c1, z', c2, c3, c4, c5, c6, c7⟩
  · rintro ⟨x', c1, z', c2, c3, c4, c5, c6, c7⟩
    exact nearWater_complete WS w y x z hWS hx hz x' z' c1 c2 c3 c4 c5 c6 c7

theorem shoreCell_eq (WS WH : Nat) (w : World) (y x z : Nat) (hWS : WS ≤ 127)
    (hy : (y : Int) < (WH : Int) - 1) (hx : x < WS) (hz : z < WS) :
    shoreCell WS WH w y x z =
      if sandRule WS w y x z then setBlock w y x z SAND else w := by
  have hnw := nearWater_iff WS w y x z hWS hx hz
  unfold shoreCell
  simp only []
  by_cases h1 : w y x z ≠ GRASS ∧ w y x z ≠ DIRT
  · rw [if_pos h1, if_neg]
    intro hr
    rcases hr.1 with hg | hd
    · exact h1.1 hg
    · exact h1.2 hd
  · rw [if_neg h1, if_neg (by omega)]
    have hgd : w y x z = GRASS ∨ w y x z = DIRT := by
      by_cases hg : w y x z = GRASS
      · exact Or.inl hg
      · by_cases hd : w y x z = DIRT
        · exact Or.inr hd
        · exact absurd ⟨hg, hd⟩ h1
    by_cases h2 : w (y + 1) x z ≠ AIR ∧ w (y + 1) x z ≠ WATER
    · rw [if_pos h2, if_neg]
      intro hr
      rcases hr.2.1 with ha | hb
      · exact h2.1 ha
      · exact h2.2 hb
    · rw [if_neg h2]
      have hab : w (y + 1) x z = AIR ∨ w (y + 1) x z = WATER := by
        by_cases ha : w (y + 1) x z = AIR
        · exact Or.inl ha
        · by_cases hb : w (y + 1) x z = WATER
          · exact Or.inr hb
          · exact absurd ⟨ha, hb⟩ h2
      by_cases h3 : nearWater WS w y x z = true
      · rw [if_pos h3, if_pos ⟨hgd, hab, hnw.mp h3⟩]
      · rw [if_neg h3, if_neg]
        intro hr
        exact h3 (hnw.mpr hr.2.2)

theorem sandRule_congr (WS : Nat) (w w' : World) (y x z : Nat)
    (h1 : w y x z = w' y x z) (h2 : w (y + 1) x z = w' (y + 1) x z)
    (h3 : ∀ x' z', w y x' z' = WATER ↔ w' y x' z' = WATER) :
    sandRule WS w y x z ↔ sandRule WS w' y x z := by
  unfold sandRule
  rw [h1, h2]
  simp only [h3]

theorem shoreFold_spec (WS WH : Nat) (w : World) (y : Nat) (hWS : WS ≤ 127)
    (hy : (y : Int) < (WH : Int) - 1) :
    ∀ (l : List (Nat × Nat)), l.Nodup → (∀ p, p ∈ l → p.1 < WS ∧ p.2 < WS) →
      ∀ (cur : World), (∀ p, p ∈ l → cur y p.1 p.2 = w y p.1 p.2) →
        (∀ x z, cur (y + 1) x z = w (y + 1) x z) →
        (∀ x z, cur y x z = WATER ↔ w y x z = WATER) →
        ∀ y' x z, (l.foldl (fun c p => shoreCell WS WH c y p.1 p.2) cur) y' x z =
          if y' = y ∧ (x, z) ∈ l ∧ sandRule WS w y x z then SAND else cur y' x z := by
  intro l
  induction l with
  | nil =>
    intro _ _ cur _ _ _ y' x z
    rw [List.foldl_nil, if_neg (fun h => List.not_mem_nil _ h.2.1)]
  | cons a t ih =>
    intro hnd hin cur hag hab hwt y' x z
    have hat : a ∉ t := (List.nodup_cons.mp hnd).1
    have htn : t.Nodup := (List.nodup_cons.mp hnd).2
    have hain := hin a (List.mem_cons_self _ _)
    have hrule : sandRule WS cur y a.1 a.2 ↔ sandRule WS w y a.1 a.2 :=
      sandRule_congr WS cur w y a.1 a.2 (hag a (List.mem_cons_self _ _)) (hab _ _) hwt
    -- the grid after the step at `a`
    have hstep : ∀ y' x z, shoreCell WS WH cur y a.1 a.2 y' x z =
        if (y' = y ∧ x = a.1 ∧ z = a.2) ∧ sandRule WS w y a.1 a.2 then SAND
        else cur y' x z := by
      intro y' x z
      rw [shoreCell_eq WS WH cur y a.1 a.2 hWS hy hain.1 hain.2]
      by_cases hr : sandRule WS w y a.1 a.2
      · rw [if_pos (hrule.mpr hr)]
        unfold setBlock
        by_cases hc : y' = y ∧ x = a.1 ∧ z = a.2
        · rw [if_pos hc, if_pos ⟨hc, hr⟩]
        · rw [if_neg hc, if_neg (fun h => hc h.1)]
      · rw [if_neg (fun h => hr (hrule.mp h)), if_neg (fun h => hr h.2)]
    rw [List.foldl_cons]
    have hres := ih htn (fun p hp => hin p (List.mem_cons_of_mem _ hp))
      (shoreCell WS WH cur y a.1 a.2)
      (by
        intro p hp
        rw [hstep, if_neg, hag p (List.mem_cons_of_mem _ hp)]
        intro h
        apply hat
        have hpa : p = a := Prod.ext h.1.2.1 h.1.2.2
        rw [← hpa]
        exact hp)
      (by
        intro x' z'
        rw [hstep, if_neg (fun h => by omega), hab])
      (by
        intro x' z'
        rw [hstep]
        by_cases hc : (y = y ∧ x' = a.1 ∧ z' = a.2) ∧ sandRule WS w y a.1 a.2
        · rw [if_pos hc]
          obtain ⟨⟨-, rfl, rfl⟩, hr⟩ := hc
          constructor
          · intro h; exact absurd h (by decide)
          · intro h
            rcases hr.1 with hg | hd
            · rw [hg] at h; exact absurd h (by decide)
            · rw [hd] at h; exact absurd h (by decide)
        · rw [if_neg hc]
          exact hwt x' z')
      y' x z
    by_cases hxa : (x, z) = a
    · have hx1 : x = a.1 := by rw [← hxa]
      have hz1 : z = a.2 := by rw [← hxa]
      have hnt : (x, z) ∉ t := by rw [hxa]; exact hat
      rw [hres, if_neg (fun h => hnt h.2.1), hstep]
      by_cases hc : y' = y ∧ sandRule WS w y a.1 a.2
      · rw [if_pos ⟨⟨hc.1, hx1, hz1⟩, hc.2⟩, if_pos]
        refine ⟨hc.1, ?_, ?_⟩
        · rw [hxa]; exact List.mem_cons_self _ _
        · rw [hx1, hz1]; exact hc.2
      · rw [if_neg (fun h => hc ⟨h.1.1, h.2⟩), if_neg]
        intro h
        apply hc
        refine ⟨h.1, ?_⟩
        have h3 := h.2.2
        rw [hx1, hz1] at h3
        exact h3
    · have hne : ¬ (y' = y ∧ x = a.1 ∧ z = a.2) := fun h => hxa (Prod.ext h.2.1 h.2.2)
      have hcur : shoreCell WS WH cur y a.1 a.2 y' x z = cur y' x z := by
        rw [hstep, if_neg (fun h => hne h.1)]
      rw [hres, hcur]
      by_cases hc : y' = y ∧ (x, z) ∈ t ∧ sandRule WS w y x z
      · rw [if_pos hc, if_pos ⟨hc.1, List.mem_cons_of_mem _ hc.2.1, hc.2.2⟩]
      · rw [if_neg hc, if_neg]
        intro h
        apply hc
        refine ⟨h.1, ?_, h.2.2⟩
        rcases List.mem_cons.mp h.2.1 with h1 | h1
        · exact absurd h1 hxa
        · exact h1

theorem shoreLevel_spec (WS WH : Nat) (w : World) (y : Nat) (hWS : WS ≤ 127)
    (hy : (y : Int) < (WH : Int) - 1) (y' x z : Nat) :
    shoreLevel WS WH w y y' x z =
      if y' = y ∧ x < WS ∧ z < WS ∧ sandRule WS w y x z then SAND else w y' x z := by
  have hfold : shoreLevel WS WH w y =
      (List.product (List.range WS) (List.range WS)).foldl
        (fun c p => shoreCell WS WH c y p.1 p.2) w := by
    unfold shoreLevel
    rw [foldl_product]
  have hmem : ∀ p : Nat × Nat, p ∈ List.product (List.range WS) (List.range WS) ↔
      p.1 < WS ∧ p.2 < WS := by
    intro p
    have h : (p.1, p.2) ∈ List.product (List.range WS) (List.range WS) ↔
        p.1 ∈ List.range WS ∧ p.2 ∈ List.range WS := List.mem_product
    rw [List.mem_range, List.mem_range] at h
    exact h
  have hnd : (List.product (List.range WS) (List.range WS)).Nodup :=
    List.Nodup.product (List.nodup_range WS) (List.nodup_range WS)
  rw [hfold, shoreFold_spec WS WH w y hWS hy (List.product (List.range WS) (List.range WS)) hnd
    (fun p hp => (hmem p).mp hp) w (fun _ _ => rfl) (fun _ _ => rfl) (fun _ _ => Iff.rfl)]
  have hm := hmem (x, z)
  simp only [hm]
  by_cases hc : y' = y ∧ x < WS ∧ z < WS ∧ sandRule WS w y x z
  · rw [if_pos hc, if_pos ⟨hc.1, ⟨hc.2.1, hc.2.2.1⟩, hc.2.2.2⟩]
  · rw [if_neg hc, if_neg]
    intro h
    exact hc ⟨h.1, h.2.1.1, h.2.1.2, h.2.2⟩

theorem shoreline_eq_spec (WS WH : Nat) (w : World) (hWS : WS ≤ 127)
    (hWH : WATER_LEVEL + 1 < WH) :
    shoreline WS WH w = shorelineSpec WS w := by
  unfold WATER_LEVEL at hWH
  have h4 : ¬ (WATER_LEVEL - 1 ≥ WH) := by unfold WATER_LEVEL; omega
  have h5 : ¬ (WATER_LEVEL ≥ WH) := by unfold WATER_LEVEL; omega
  have e : shoreline WS WH w =
      shoreLevel WS WH (shoreLevel WS WH w (WATER_LEVEL - 1)) WATER_LEVEL := by
    unfold shoreline
    simp only [shoreLevels, if_neg h4, if_neg h5]
  funext y x z
  rw [e, shoreLevel_spec WS WH _ WATER_LEVEL hWS (by unfold WATER_LEVEL; omega)]
  have hlow : ∀ y' x' z', shoreLevel WS WH w (WATER_LEVEL - 1) y' x' z' =
      if y' = WATER_LEVEL - 1 ∧ x' < WS ∧ z' < WS ∧ sandRule WS w (WATER_LEVEL - 1) x' z'
      then SAND else w y' x' z' :=
    fun y' x' z' =>
      shoreLevel_spec WS WH w (WATER_LEVEL - 1) hWS (by unfold WATER_LEVEL; omega) y' x' z'
  have hkeep : ∀ y', y' ≠ WATER_LEVEL - 1 → ∀ x' z',
      shoreLevel WS WH w (WATER_LEVEL - 1) y' x' z' = w y' x' z' := by
    intro y' hy' x' z'
    rw [hlow, if_neg (fun h => hy' h.1)]
  have hr : sandRule WS (shoreLevel WS WH w (WATER_LEVEL - 1)) WATER_LEVEL x z ↔
      sandRule WS w WATER_LEVEL x z :=
    sandRule_congr WS _ w WATER_LEVEL x z
      (hkeep _ (by unfold WATER_LEVEL; omega) x z)
      (hkeep _ (by unfold WATER_LEVEL; omega) x z)
      (fun x' z' => by rw [hkeep _ (by unfold WATER_LEVEL; omega) x' z'])
  unfold shorelineSpec
  rw [hlow y x z]
  by_cases c5 : y = WATER_LEVEL
  · have hn4 : ¬ y = WATER_LEVEL - 1 := by rw [c5]; unfold WATER_LEVEL; omega
    by_cases hc : x < WS ∧ z < WS ∧ sandRule WS w WATER_LEVEL x z
    · rw [if_pos ⟨c5, hc.1, hc.2.1, hr.mpr hc.2.2⟩, if_pos]
      exact ⟨Or.inr c5, hc.1, hc.2.1, by rw [c5]; exact hc.2.2⟩
    · rw [if_neg (fun h => hc ⟨h.2.1, h.2.2.1, hr.mp h.2.2.2⟩), if_neg (fun h => hn4 h.1),
        if_neg]
      intro h
      apply hc
      refine ⟨h.2.1, h.2.2.1, ?_⟩
      have h3 := h.2.2.2
      rw [c5] at h3
      exact h3
  · rw [if_neg (fun h => c5 h.1)]
    by_cases c4 : y = WATER_LEVEL - 1
    · by_cases hc : x < WS ∧ z < WS ∧ sandRule WS w (WATER_LEVEL - 1) x z
      · rw [if_pos ⟨c4, hc⟩, if_pos]
        exact ⟨Or.inl c4, hc.1, hc.2.1, by rw [c4]; exact hc.2.2⟩
      · rw [if_neg (fun h => hc h.2), if_neg]
        intro h
        apply hc
        refine ⟨h.2.1, h.2.2.1, ?_⟩
        have h3 := h.2.2.2
        rw [c4] at h3
        exact h3
    · rw [if_neg (fun h => c4 h.1), if_neg]
      intro h
      rcases h.1 with h1 | h1
      · exact c4 h1
      · exact c5 h1

/-- C17: for every voxel grid, with WORLD_SIZE ≤ 127 and
WORLD_HEIGHT > WATER_LEVEL + 1, the grid the in-place scan leaves (height
WATER_LEVEL - 1 first, then WATER_LEVEL, each over x then z) is the
simultaneous rewrite of the grid before the pass: a voxel (y, x, z) of the
world with y = WATER_LEVEL - 1 or y = WATER_LEVEL is SAND when, in the grid
before the pass, it was GRASS or DIRT, the voxel above it was AIR or WATER and
some voxel (y, x', z') of the world with |x - x'| ≤ 2 and |z - z'| ≤ 2 was
WATER; every other voxel keeps the value it had before the pass.  So a voxel
is SAND after the pass exactly when it meets that condition or was SAND
before, and writes made earlier in the scan change no later decision. -/
theorem C17_shoreline_simultaneous (WS WH : Nat) (w : World) (hWS : WS ≤ 127)
    (hWH : WATER_LEVEL + 1 < WH) :
    shoreline WS WH w = shorelineSpec WS w ∧
      ∀ y x z, shoreline WS WH w y x z = SAND ↔
        (((y = WATER_LEVEL - 1 ∨ y = WATER_LEVEL) ∧ x < WS ∧ z < WS ∧ sandRule WS w y x z) ∨
          w y x z = SAND) := by
  have he := shoreline_eq_spec WS WH w hWS hWH
  refine ⟨he, ?_⟩
  intro y x z
  rw [he]
  unfold shorelineSpec
  by_cases hc : (y = WATER_LEVEL - 1 ∨ y = WATER_LEVEL) ∧ x < WS ∧ z < WS ∧ sandRule WS w y x z
  · rw [if_pos hc]
    exact ⟨fun _ => Or.inl hc, fun _ => rfl⟩
  · rw [if_neg hc]
    exact ⟨fun h => Or.inr h, fun h => h.elim (fun h1 => absurd h1 hc) id⟩

/-- Witness of C17: `shoreSample` in a 3 x 3 world of height 8; the scan and
the simultaneous rewrite both turn the GRASS voxel at (5, 0, 0) into SAND. -/
theorem C17_shoreline_simultaneous_witness :
    shorelineSpec 3 shoreSample 5 0 0 = SAND ∧
      shoreline 3 8 shoreSample = shorelineSpec 3 shoreSample :=
  ⟨by decide, (C17_shoreline_simultaneous 3 8 shoreSample (by decide) (by decide)).1⟩

end Worldgen
